import Mathlib

/-!
Verification of the lox-rust interpreter core against its specification.

The Lean definitions below are a shallow embedding of the Rust sources:

* `src/src/lox/token.rs`       - the `Token` type (the union of the variants
  referenced across the source files: `token.rs` declares `Star`, `Slash`
  and `EqualEqual`, while `scanner.rs` additionally references `Times`,
  `Divide` and `Assign`; all are included so that every cited function can
  be embedded as written).
* `src/src/lox/scanner.rs`     - `Scanner::scan_tokens` and its `match_*`
  helpers, embedded one function per Rust function.  The Rust helpers
  consume characters from a shared iterator and push tokens to a shared
  vector; here each helper takes the remaining characters and returns the
  emitted tokens together with the remaining characters.  A fuel parameter
  makes the mutual recursion structural; `scan_tokens` supplies fuel that
  is provably larger than the number of calls any input can cause, so the
  fuel-exhaustion branches are unreachable.
* `src/src/lox/expr.rs`, `stmt.rs`, `value.rs`, `function.rs`,
  `environment.rs`, `parser.rs`, `resolver.rs`, `interpreter.rs` and the
  `vm` module - embedded further below.

Numbers: the Rust code uses IEEE-754 `f64`.  Every numeric literal and
operation relevant to the claims is exact (small decimal fractions and
integers), so `f64` is embedded as `Rat` with exact rational arithmetic.
The rational operations are written with `mkRat` (rather than the
`Rat.add` etc. of the library, which are sealed) so that concrete runs
reduce inside the kernel.

Error-message strings: messages are kept verbatim where a theorem depends
on them; messages whose original text contains quote characters are
reproduced without the quotes.  No claim depends on message wording.
-/

/-- Exact rational addition, the embedding of `f64` addition on the
(dyadic-exact) numbers the interpreter manipulates. -/
def ratAdd (a b : Rat) : Rat := mkRat (a.num * b.den + b.num * a.den) (a.den * b.den)

/-- Exact rational subtraction, the embedding of `f64` subtraction. -/
def ratSub (a b : Rat) : Rat := mkRat (a.num * b.den - b.num * a.den) (a.den * b.den)

/-- Exact rational multiplication, the embedding of `f64` multiplication. -/
def ratMul (a b : Rat) : Rat := mkRat (a.num * b.num) (a.den * b.den)

/-- Exact rational negation, the embedding of `f64` negation. -/
def ratNeg (a : Rat) : Rat := mkRat (-a.num) a.den

/-- Exact rational division, the embedding of `f64` division (the callers
check for a zero divisor first, as the Rust code does). -/
def ratDiv (a b : Rat) : Rat :=
  if b.num < 0 then mkRat (-(a.num * b.den)) (a.den * b.num.natAbs)
  else mkRat (a.num * b.den) (a.den * b.num.natAbs)

/-- Strict less-than on the embedded numbers (boolean, as Rust `<`). -/
def ratLtB (a b : Rat) : Bool := a.num * b.den < b.num * a.den

/-- Less-or-equal on the embedded numbers (boolean, as Rust `<=`). -/
def ratLeB (a b : Rat) : Bool := a.num * b.den ≤ b.num * a.den

/-- Equality test on the embedded numbers (boolean, as Rust `==`). -/
def ratEqB (a b : Rat) : Bool := a == b

/-!
## Token (`src/src/lox/token.rs`, plus the variants used by `scanner.rs`)
-/

/-- The token kinds of `token.rs`, together with `times`, `divide` and
`assign`, which `scanner.rs` pushes (`Token::Times`, `Token::Divide`,
`Token::Assign`).  `equal` is the variant `Token::Equal`; the scanner
emits it for the two-character form `==`. -/
inductive Token where
  | leftParenthesis
  | rightParenthesis
  | leftBrace
  | rightBrace
  | comma
  | dot
  | semicolon
  | plus
  | minus
  | star
  | slash
  | equal
  | less
  | greater
  | bang
  | equalEqual
  | lessEqual
  | greaterEqual
  | bangEqual
  | andKw
  | classKw
  | elseKw
  | falseKw
  | funKw
  | forKw
  | ifKw
  | nilKw
  | orKw
  | printKw
  | returnKw
  | superKw
  | thisKw
  | trueKw
  | varKw
  | whileKw
  | stringLiteral (s : String)
  | numberLiteral (q : Rat)
  | identifier (s : String)
  | eof
  | times
  | divide
  | assign
deriving DecidableEq, Repr

/-!
## Scanner (`src/src/lox/scanner.rs`)
-/

/-- The `ScanInfo` struct of the scanner (line and column bookkeeping;
it never affects the emitted tokens). -/
structure ScanInfo where
  line : Nat
  line_offset : Nat
deriving DecidableEq, Repr

/-- `char::is_ascii_digit`. -/
def isAsciiDigit (c : Char) : Bool := 48 ≤ c.toNat && c.toNat ≤ 57

/-- `char::is_ascii_alphabetic`. -/
def isAsciiAlphabetic (c : Char) : Bool :=
  (65 ≤ c.toNat && c.toNat ≤ 90) || (97 ≤ c.toNat && c.toNat ≤ 122)

/-- `char::is_ascii_alphanumeric`. -/
def isAsciiAlphanumeric (c : Char) : Bool := isAsciiDigit c || isAsciiAlphabetic c

/-- `str::is_ascii` (every byte of the UTF-8 string is ASCII, i.e. every
character is below 128). -/
def isAsciiString (s : String) : Bool := s.data.all (fun c => c.toNat < 128)

/-- Numeric value of a list of ASCII digit characters (most significant
first), accumulator style. -/
def digitsToNat : List Char → Nat → Nat
  | [], acc => acc
  | c :: rest, acc => digitsToNat rest (acc * 10 + (c.toNat - 48))

/-- Split a character list at the first dot. -/
def splitAtDot : List Char → List Char × List Char
  | [] => ([], [])
  | c :: rest =>
    if c = '.' then ([], rest)
    else
      let p := splitAtDot rest
      (c :: p.1, p.2)

/-- The embedding of `str::parse::<f64>()` restricted to the buffers the
scanner can build (a leading digit followed by digits and dots): it fails
exactly when the buffer contains more than one dot, and otherwise reads
the value as integer-part.fraction-part. -/
def parseF64 (chars : List Char) : Option Rat :=
  if 1 < chars.countP (fun c => c == '.') then none
  else
    let p := splitAtDot chars
    some (mkRat ((digitsToNat p.1 0) * 10 ^ p.2.length + digitsToNat p.2 0) (10 ^ p.2.length))

/-- Result of one scanner helper: the tokens it pushed, the characters it
left unconsumed, and the updated `ScanInfo`. -/
abbrev ScanStep := List Token × List Char × ScanInfo

mutual

/-- `Scanner::match_root`: dispatch on a single character.  Note that the
catch-all arm (`other => {}` in the source) silently drops the character:
in particular `( ) { } , . ;` and `!` produce no token. -/
def match_root : Nat → Char → List Char → ScanInfo → ScanStep
  | 0, _, rest, info => ([], rest, info)
  | n + 1, c, rest, info =>
    if c = '+' then ([Token.plus], rest, info)
    else if c = '-' then ([Token.minus], rest, info)
    else if c = '*' then ([Token.times], rest, info)
    else if c = '/' then match_divide n rest info
    else if c = '=' then match_assign n rest info
    else if c = '<' then match_less n rest info
    else if c = '>' then match_greater n rest info
    else if c = '"' then match_string_literal n rest [] info
    else if c = '\n' then ([], rest, { line := info.line + 1, line_offset := 0 })
    else if c = ' ' then ([], rest, { info with line_offset := 0 })
    else if isAsciiDigit c then match_number_literal n c rest info
    else if isAsciiAlphabetic c then match_identifier n c rest info
    else ([], rest, info)

/-- `Scanner::match_assign`: one-character lookahead after `=`. -/
def match_assign : Nat → List Char → ScanInfo → ScanStep
  | 0, rest, info => ([], rest, info)
  | n + 1, rest, info =>
    match rest with
    | [] => ([Token.assign], [], info)
    | c :: rest2 =>
      if c = '=' then ([Token.equal], rest2, info)
      else
        let s := match_root n c rest2 info
        (Token.assign :: s.1, s.2.1, s.2.2)

/-- `Scanner::match_less`. -/
def match_less : Nat → List Char → ScanInfo → ScanStep
  | 0, rest, info => ([], rest, info)
  | n + 1, rest, info =>
    match rest with
    | [] => ([Token.less], [], info)
    | c :: rest2 =>
      if c = '=' then ([Token.lessEqual], rest2, info)
      else
        let s := match_root n c rest2 info
        (Token.less :: s.1, s.2.1, s.2.2)

/-- `Scanner::match_greater`. -/
def match_greater : Nat → List Char → ScanInfo → ScanStep
  | 0, rest, info => ([], rest, info)
  | n + 1, rest, info =>
    match rest with
    | [] => ([Token.greater], [], info)
    | c :: rest2 =>
      if c = '=' then ([Token.greaterEqual], rest2, info)
      else
        let s := match_root n c rest2 info
        (Token.greater :: s.1, s.2.1, s.2.2)

/-- `Scanner::match_divide`: `//` starts a line comment. -/
def match_divide : Nat → List Char → ScanInfo → ScanStep
  | 0, rest, info => ([], rest, info)
  | n + 1, rest, info =>
    match rest with
    | [] => ([Token.divide], [], info)
    | c :: rest2 =>
      if c = '/' then match_line_comment n rest2 info
      else
        let s := match_root n c rest2 info
        (Token.divide :: s.1, s.2.1, s.2.2)

/-- `Scanner::match_line_comment`: consume to end of line. -/
def match_line_comment : Nat → List Char → ScanInfo → ScanStep
  | 0, rest, info => ([], rest, info)
  | n + 1, rest, info =>
    match rest with
    | [] => ([], [], info)
    | c :: rest2 =>
      if c = '\n' then ([], rest2, { line := info.line + 1, line_offset := 0 })
      else match_line_comment n rest2 info

/-- `Scanner::match_string_literal`: consume to the closing quote.  If the
input ends first, the loop simply ends: no token is pushed and no error is
raised (the `FIXME` in the source notes that an error should be returned). -/
def match_string_literal : Nat → List Char → List Char → ScanInfo → ScanStep
  | 0, rest, _, info => ([], rest, info)
  | n + 1, rest, buffer, info =>
    match rest with
    | [] => ([], [], info)
    | c :: rest2 =>
      if c = '"' then ([Token.stringLiteral (String.mk buffer)], rest2, info)
      else match_string_literal n rest2 (buffer ++ [c]) info

/-- `Scanner::match_number_literal`: consume digits and dots.  A second
dot is pushed into the buffer anyway (the `TODO: return error` in the
source is a comment only), and a buffer that fails to parse as `f64`
produces no token and no error. -/
def match_number_literal : Nat → Char → List Char → ScanInfo → ScanStep
  | 0, _, rest, info => ([], rest, info)
  | n + 1, first, rest, info => match_number_loop n [first] false rest info

/-- The character-consuming loop inside `Scanner::match_number_literal`. -/
def match_number_loop : Nat → List Char → Bool → List Char → ScanInfo → ScanStep
  | 0, _, _, rest, info => ([], rest, info)
  | n + 1, buffer, seenDot, rest, info =>
    match rest with
    | [] =>
      match parseF64 buffer with
      | some q => ([Token.numberLiteral q], [], info)
      | none => ([], [], info)
    | c :: rest2 =>
      if isAsciiDigit c then match_number_loop n (buffer ++ [c]) seenDot rest2 info
      else if c = '.' then match_number_loop n (buffer ++ ['.']) true rest2 info
      else
        let tok : List Token :=
          match parseF64 buffer with
          | some q => [Token.numberLiteral q]
          | none => []
        let s := match_root n c rest2 info
        (tok ++ s.1, s.2.1, s.2.2)

/-- `Scanner::match_identifier`: consume alphanumerics, then check the
reserved-word table.  An identifier that runs into the end of input is
dropped (the loop ends without pushing a token, as in the source). -/
def match_identifier : Nat → Char → List Char → ScanInfo → ScanStep
  | 0, _, rest, info => ([], rest, info)
  | n + 1, first, rest, info => match_identifier_loop n [first] rest info

/-- The character-consuming loop inside `Scanner::match_identifier`,
including the keyword table. -/
def match_identifier_loop : Nat → List Char → List Char → ScanInfo → ScanStep
  | 0, _, rest, info => ([], rest, info)
  | n + 1, buffer, rest, info =>
    match rest with
    | [] => ([], [], info)
    | c :: rest2 =>
      if isAsciiAlphanumeric c then match_identifier_loop n (buffer ++ [c]) rest2 info
      else
        let tok : Token :=
          let s := String.mk buffer
          if s = "and" then Token.andKw
          else if s = "class" then Token.classKw
          else if s = "else" then Token.elseKw
          else if s = "false" then Token.falseKw
          else if s = "fun" then Token.funKw
          else if s = "for" then Token.forKw
          else if s = "if" then Token.ifKw
          else if s = "nil" then Token.nilKw
          else if s = "or" then Token.orKw
          else if s = "print" then Token.printKw
          else if s = "return" then Token.returnKw
          else if s = "super" then Token.superKw
          else if s = "this" then Token.thisKw
          else if s = "true" then Token.trueKw
          else if s = "var" then Token.varKw
          else if s = "while" then Token.whileKw
          else Token.identifier s
        let st := match_root n c rest2 info
        (tok :: st.1, st.2.1, st.2.2)

end

/-- The `while let Some(c) = char_iterator.nth(0)` loop of
`Scanner::scan_tokens`, with the trailing `Eof` push. -/
def scan_loop : Nat → List Char → ScanInfo → List Token
  | 0, _, _ => [Token.eof]
  | n + 1, chars, info =>
    match chars with
    | [] => [Token.eof]
    | c :: rest =>
      let s := match_root n c rest info
      s.1 ++ scan_loop n s.2.1 s.2.2

/-- `Scanner::scan_tokens`: fail on non-ASCII input, otherwise scan the
characters and append `Eof`.  This is the only error exit of the scanner.
The fuel bound exceeds the number of recursive calls any input of this
length can cause. -/
def scan_tokens (source : String) : Except String (List Token) :=
  if isAsciiString source then
    Except.ok (scan_loop (3 * source.data.length + 8) source.data { line := 0, line_offset := 0 })
  else
    Except.error "Source is not ASCII"


/-!
## AST (`src/src/lox/expr.rs`, `src/src/lox/stmt.rs`)

`ExprAssign` and `ExprIdentifier` are flattened into constructor fields.
`ParseTreeId` is `u32` in the source; ids are assigned by incrementing
from 0, so they are embedded as `Nat`.  `stmt.rs` as committed lacks the
`FunctionDeclaration` variant that `parser.rs` and `interpreter.rs` use;
the union of the variants is embedded so the cited functions can be
written as they appear.
-/

/-- `ParseTreeId` (`pub type ParseTreeId = u32`). -/
abbrev ParseTreeId := Nat

/-- The `Expr` enum of `expr.rs`. -/
inductive Expr where
  | assign (parse_tree_id : ParseTreeId) (left : String) (right : Expr)
  | binaryOr (l r : Expr)
  | binaryAnd (l r : Expr)
  | binaryEqual (l r : Expr)
  | binaryNotEqual (l r : Expr)
  | binaryLess (l r : Expr)
  | binaryLessEqual (l r : Expr)
  | binaryGreater (l r : Expr)
  | binaryGreaterEqual (l r : Expr)
  | binaryAdd (l r : Expr)
  | binarySub (l r : Expr)
  | binaryMul (l r : Expr)
  | binaryDiv (l r : Expr)
  | unaryBang (e : Expr)
  | unaryMinus (e : Expr)
  | call (callee : Expr) (arguments : List Expr)
  | literalString (s : String)
  | literalNumber (q : Rat)
  | falseLit
  | trueLit
  | nilLit
  | identifier (parse_tree_id : ParseTreeId) (id : String)

/-- The `Stmt` enum (with the `FunctionDeclaration` variant used by the
parser and the interpreter). -/
inductive Stmt where
  | print (e : Expr)
  | expr (e : Expr)
  | varDeclaration (name : String) (initializer : Option Expr)
  | block (stmts : List Stmt)
  | ifStmt (condition : Expr) (then_branch : Stmt) (else_branch : Option Stmt)
  | whileStmt (condition : Expr) (body : Stmt)
  | functionDeclaration (name : String) (arguments : List String) (body : Stmt)

/-!
## Parser (`src/src/lox/parser.rs`)

The `Parser` struct carries the token vector, the `current` index and the
`current_parse_tree_id` counter.  Each Rust method becomes a function from
`ParserState`; errors are the `ParseError` message strings.  A fuel
parameter makes the mutual recursion structural; `parse` supplies fuel
larger than the number of calls any token vector can cause.
-/

/-- The `Parser` struct fields. -/
structure ParserState where
  tokens : List Token
  current : Nat
  current_parse_tree_id : Nat
deriving DecidableEq, Repr

/-- `Parser::is_at_end`. -/
def p_is_at_end (p : ParserState) : Bool :=
  p.tokens.length ≤ p.current || p.tokens.getD p.current Token.eof == Token.eof

/-- `Parser::peek` (`tokens[current]`; the out-of-range default is never
reached by the guarded call sites). -/
def p_peek (p : ParserState) : Token := p.tokens.getD p.current Token.eof

/-- `Parser::previous` (`tokens[current - 1]`). -/
def p_previous (p : ParserState) : Token := p.tokens.getD (p.current - 1) Token.eof

/-- `Parser::advance`. -/
def p_advance (p : ParserState) : Token × ParserState :=
  let p2 := if p_is_at_end p then p else { p with current := p.current + 1 }
  (p_previous p2, p2)

/-- `Parser::check`. -/
def p_check (p : ParserState) (t : Token) : Bool :=
  if p_is_at_end p then false else p_peek p == t

/-- `Parser::match_token`. -/
def p_match_token (p : ParserState) (ts : List Token) : Bool × ParserState :=
  if ts.any (fun t => p_check p t) then (true, (p_advance p).2) else (false, p)

/-- `Parser::get_next_parse_tree_id`. -/
def p_next_id (p : ParserState) : Nat × ParserState :=
  (p.current_parse_tree_id, { p with current_parse_tree_id := p.current_parse_tree_id + 1 })

mutual

/-- `Parser::parse_statement`: dispatch on the first token. -/
def parse_statement : Nat → ParserState → Except String (Stmt × ParserState)
  | 0, _ => Except.error "parser out of fuel"
  | n + 1, p =>
    match p_peek p with
    | Token.printKw => parse_statement_print n p
    | Token.varKw => parse_statement_var_declaration n p
    | Token.leftBrace => parse_statement_block n p
    | Token.ifKw => parse_statement_if n p
    | Token.whileKw => parse_statement_while n p
    | Token.funKw => parse_statement_function_declaration n p
    | _ => parse_statement_expression n p

/-- `Parser::parse_statement_block`. -/
def parse_statement_block : Nat → ParserState → Except String (Stmt × ParserState)
  | 0, _ => Except.error "parser out of fuel"
  | n + 1, p =>
    let p1 := (p_advance p).2
    match parse_block_stmts n [] p1 with
    | Except.error e => Except.error e
    | Except.ok (stmts, p2) =>
      let m := p_match_token p2 [Token.rightBrace]
      if m.1 then Except.ok (Stmt.block stmts, m.2)
      else Except.error "Expected right brace after block."

/-- The statement-collecting loop inside `parse_statement_block`. -/
def parse_block_stmts : Nat → List Stmt → ParserState →
    Except String (List Stmt × ParserState)
  | 0, _, _ => Except.error "parser out of fuel"
  | n + 1, acc, p =>
    if !p_is_at_end p && !p_check p Token.rightBrace then
      match parse_statement n p with
      | Except.error e => Except.error e
      | Except.ok (s, p1) => parse_block_stmts n (acc ++ [s]) p1
    else Except.ok (acc, p)

/-- `Parser::parse_statement_print`. -/
def parse_statement_print : Nat → ParserState → Except String (Stmt × ParserState)
  | 0, _ => Except.error "parser out of fuel"
  | n + 1, p =>
    let p1 := (p_advance p).2
    match parse_expression n p1 with
    | Except.error e => Except.error e
    | Except.ok (e, p2) =>
      let m := p_match_token p2 [Token.semicolon]
      if m.1 then Except.ok (Stmt.print e, m.2)
      else Except.error "Expected semicolon after expression."

/-- `Parser::parse_statement_expression`. -/
def parse_statement_expression : Nat → ParserState → Except String (Stmt × ParserState)
  | 0, _ => Except.error "parser out of fuel"
  | n + 1, p =>
    match parse_expression n p with
    | Except.error e => Except.error e
    | Except.ok (e, p1) =>
      let m := p_match_token p1 [Token.semicolon]
      if m.1 then Except.ok (Stmt.expr e, m.2)
      else Except.error "Expected semicolon after expression."

/-- `Parser::parse_statement_var_declaration`. -/
def parse_statement_var_declaration : Nat → ParserState →
    Except String (Stmt × ParserState)
  | 0, _ => Except.error "parser out of fuel"
  | n + 1, p =>
    let p1 := (p_advance p).2
    let a := p_advance p1
    match a.1 with
    | Token.identifier s =>
      let m := p_match_token a.2 [Token.equal]
      if m.1 then
        match parse_expression n m.2 with
        | Except.error e => Except.error e
        | Except.ok (init, p2) =>
          let m2 := p_match_token p2 [Token.semicolon]
          if m2.1 then Except.ok (Stmt.varDeclaration s (some init), m2.2)
          else Except.error "Expected semicolon after variable declaration."
      else
        let m2 := p_match_token m.2 [Token.semicolon]
        if m2.1 then Except.ok (Stmt.varDeclaration s none, m2.2)
        else Except.error "Expected semicolon after variable declaration."
    | _ => Except.error "Expected identifier after var."

/-- `Parser::parse_statement_if`. -/
def parse_statement_if : Nat → ParserState → Except String (Stmt × ParserState)
  | 0, _ => Except.error "parser out of fuel"
  | n + 1, p =>
    let p1 := (p_advance p).2
    let m := p_match_token p1 [Token.leftParenthesis]
    if m.1 then
      match parse_expression n m.2 with
      | Except.error e => Except.error e
      | Except.ok (cond, p2) =>
        let m2 := p_match_token p2 [Token.rightParenthesis]
        if m2.1 then
          match parse_statement n m2.2 with
          | Except.error e => Except.error e
          | Except.ok (thenB, p3) =>
            let m3 := p_match_token p3 [Token.elseKw]
            if m3.1 then
              match parse_statement n m3.2 with
              | Except.error e => Except.error e
              | Except.ok (elseB, p4) =>
                Except.ok (Stmt.ifStmt cond thenB (some elseB), p4)
            else Except.ok (Stmt.ifStmt cond thenB none, m3.2)
        else Except.error "Expected right parenthesis after if condition."
    else Except.error "Expected left parenthesis after if."

/-- `Parser::parse_statement_while`. -/
def parse_statement_while : Nat → ParserState → Except String (Stmt × ParserState)
  | 0, _ => Except.error "parser out of fuel"
  | n + 1, p =>
    let p1 := (p_advance p).2
    let m := p_match_token p1 [Token.leftParenthesis]
    if m.1 then
      match parse_expression n m.2 with
      | Except.error e => Except.error e
      | Except.ok (cond, p2) =>
        let m2 := p_match_token p2 [Token.rightParenthesis]
        if m2.1 then
          match parse_statement n m2.2 with
          | Except.error e => Except.error e
          | Except.ok (body, p3) => Except.ok (Stmt.whileStmt cond body, p3)
        else Except.error "Expected right parenthesis after while condition."
    else Except.error "Expected left parenthesis after while."

/-- `Parser::parse_statement_function_declaration` (the body is wrapped in
a one-element `Block`, as in the source). -/
def parse_statement_function_declaration : Nat → ParserState →
    Except String (Stmt × ParserState)
  | 0, _ => Except.error "parser out of fuel"
  | n + 1, p =>
    let p1 := (p_advance p).2
    let a := p_advance p1
    match a.1 with
    | Token.identifier name =>
      let m := p_match_token a.2 [Token.leftParenthesis]
      if m.1 then
        match parse_function_arguments n [] m.2 with
        | Except.error e => Except.error e
        | Except.ok (args, p2) =>
          let m2 := p_match_token p2 [Token.rightParenthesis]
          if m2.1 then
            match parse_statement n m2.2 with
            | Except.error e => Except.error e
            | Except.ok (body, p3) =>
              Except.ok (Stmt.functionDeclaration name args (Stmt.block [body]), p3)
          else Except.error "Expected right parenthesis after function arguments."
      else Except.error "Expected left parenthesis after function name."
    | _ => Except.error "Expected identifier after fun."

/-- The argument-name loop inside `parse_statement_function_declaration`. -/
def parse_function_arguments : Nat → List String → ParserState →
    Except String (List String × ParserState)
  | 0, _, _ => Except.error "parser out of fuel"
  | n + 1, acc, p =>
    if !p_is_at_end p && !p_check p Token.rightParenthesis then
      let a := p_advance p
      match a.1 with
      | Token.identifier s =>
        let m := p_match_token a.2 [Token.comma]
        if m.1 then parse_function_arguments n (acc ++ [s]) m.2
        else Except.ok (acc ++ [s], m.2)
      | _ => Except.error "Expected identifier in function arguments."
    else Except.ok (acc, p)

/-- `Parser::parse_expression`. -/
def parse_expression : Nat → ParserState → Except String (Expr × ParserState)
  | 0, _ => Except.error "parser out of fuel"
  | n + 1, p => parse_expression_assignment n p

/-- `Parser::parse_expression_assignment`.  Note that the source matches
`Token::Equal` here (the token the scanner emits for `==`). -/
def parse_expression_assignment : Nat → ParserState → Except String (Expr × ParserState)
  | 0, _ => Except.error "parser out of fuel"
  | n + 1, p =>
    match parse_expression_or n p with
    | Except.error e => Except.error e
    | Except.ok (e, p1) =>
      let m := p_match_token p1 [Token.equal]
      if m.1 then
        match parse_expression_or n m.2 with
        | Except.error er => Except.error er
        | Except.ok (v, p2) =>
          match e with
          | Expr.identifier _ s =>
            let idp := p_next_id p2
            Except.ok (Expr.assign idp.1 s v, idp.2)
          | _ => Except.error "Invalid assignment target."
      else Except.ok (e, p1)

/-- `Parser::parse_expression_or`. -/
def parse_expression_or : Nat → ParserState → Except String (Expr × ParserState)
  | 0, _ => Except.error "parser out of fuel"
  | n + 1, p =>
    match parse_expression_and n p with
    | Except.error e => Except.error e
    | Except.ok (l, p1) => parse_or_loop n l p1

/-- The `while` loop of `parse_expression_or`. -/
def parse_or_loop : Nat → Expr → ParserState → Except String (Expr × ParserState)
  | 0, _, _ => Except.error "parser out of fuel"
  | n + 1, l, p =>
    let m := p_match_token p [Token.orKw]
    if m.1 then
      match parse_expression_and n m.2 with
      | Except.error e => Except.error e
      | Except.ok (r, p1) =>
        match p_previous m.2 with
        | Token.orKw => parse_or_loop n (Expr.binaryOr l r) p1
        | _ => Except.error "Unexpected token while parsing or"
    else Except.ok (l, p)

/-- `Parser::parse_expression_and`. -/
def parse_expression_and : Nat → ParserState → Except String (Expr × ParserState)
  | 0, _ => Except.error "parser out of fuel"
  | n + 1, p =>
    match parse_expression_equality n p with
    | Except.error e => Except.error e
    | Except.ok (l, p1) => parse_and_loop n l p1

/-- The `while` loop of `parse_expression_and`. -/
def parse_and_loop : Nat → Expr → ParserState → Except String (Expr × ParserState)
  | 0, _, _ => Except.error "parser out of fuel"
  | n + 1, l, p =>
    let m := p_match_token p [Token.andKw]
    if m.1 then
      match parse_expression_equality n m.2 with
      | Except.error e => Except.error e
      | Except.ok (r, p1) =>
        match p_previous m.2 with
        | Token.andKw => parse_and_loop n (Expr.binaryAnd l r) p1
        | _ => Except.error "Unexpected token while parsing and"
    else Except.ok (l, p)

/-- `Parser::parse_expression_equality` (matches `EqualEqual` and
`BangEqual`, tokens the scanner never emits). -/
def parse_expression_equality : Nat → ParserState → Except String (Expr × ParserState)
  | 0, _ => Except.error "parser out of fuel"
  | n + 1, p =>
    match parse_expression_comparison n p with
    | Except.error e => Except.error e
    | Except.ok (l, p1) => parse_equality_loop n l p1

/-- The `while` loop of `parse_expression_equality`. -/
def parse_equality_loop : Nat → Expr → ParserState → Except String (Expr × ParserState)
  | 0, _, _ => Except.error "parser out of fuel"
  | n + 1, l, p =>
    let m := p_match_token p [Token.equalEqual, Token.bangEqual]
    if m.1 then
      match parse_expression_comparison n m.2 with
      | Except.error e => Except.error e
      | Except.ok (r, p1) =>
        match p_previous m.2 with
        | Token.equalEqual => parse_equality_loop n (Expr.binaryEqual l r) p1
        | Token.bangEqual => parse_equality_loop n (Expr.binaryNotEqual l r) p1
        | _ => Except.error "Unexpected token while parsing equality"
    else Except.ok (l, p)

/-- `Parser::parse_expression_comparison`. -/
def parse_expression_comparison : Nat → ParserState → Except String (Expr × ParserState)
  | 0, _ => Except.error "parser out of fuel"
  | n + 1, p =>
    match parse_expression_add_sub n p with
    | Except.error e => Except.error e
    | Except.ok (l, p1) => parse_comparison_loop n l p1

/-- The `while` loop of `parse_expression_comparison`. -/
def parse_comparison_loop : Nat → Expr → ParserState → Except String (Expr × ParserState)
  | 0, _, _ => Except.error "parser out of fuel"
  | n + 1, l, p =>
    let m := p_match_token p
      [Token.less, Token.lessEqual, Token.greater, Token.greaterEqual]
    if m.1 then
      match parse_expression_add_sub n m.2 with
      | Except.error e => Except.error e
      | Except.ok (r, p1) =>
        match p_previous m.2 with
        | Token.less => parse_comparison_loop n (Expr.binaryLess l r) p1
        | Token.lessEqual => parse_comparison_loop n (Expr.binaryLessEqual l r) p1
        | Token.greater => parse_comparison_loop n (Expr.binaryGreater l r) p1
        | Token.greaterEqual => parse_comparison_loop n (Expr.binaryGreaterEqual l r) p1
        | _ => Except.error "Unexpected token while parsing comparison"
    else Except.ok (l, p)

/-- `Parser::parse_expression_add_sub`. -/
def parse_expression_add_sub : Nat → ParserState → Except String (Expr × ParserState)
  | 0, _ => Except.error "parser out of fuel"
  | n + 1, p =>
    match parse_expression_mul_div n p with
    | Except.error e => Except.error e
    | Except.ok (l, p1) => parse_add_sub_loop n l p1

/-- The `while` loop of `parse_expression_add_sub`. -/
def parse_add_sub_loop : Nat → Expr → ParserState → Except String (Expr × ParserState)
  | 0, _, _ => Except.error "parser out of fuel"
  | n + 1, l, p =>
    let m := p_match_token p [Token.plus, Token.minus]
    if m.1 then
      match parse_expression_mul_div n m.2 with
      | Except.error e => Except.error e
      | Except.ok (r, p1) =>
        match p_previous m.2 with
        | Token.plus => parse_add_sub_loop n (Expr.binaryAdd l r) p1
        | Token.minus => parse_add_sub_loop n (Expr.binarySub l r) p1
        | _ => Except.error "Unexpected token while parsing add or sub"
    else Except.ok (l, p)

/-- `Parser::parse_expression_mul_div` (matches `Star` and `Slash`,
tokens the scanner never emits - it emits `Times` and `Divide`). -/
def parse_expression_mul_div : Nat → ParserState → Except String (Expr × ParserState)
  | 0, _ => Except.error "parser out of fuel"
  | n + 1, p =>
    match parse_expression_unary n p with
    | Except.error e => Except.error e
    | Except.ok (l, p1) => parse_mul_div_loop n l p1

/-- The `while` loop of `parse_expression_mul_div`. -/
def parse_mul_div_loop : Nat → Expr → ParserState → Except String (Expr × ParserState)
  | 0, _, _ => Except.error "parser out of fuel"
  | n + 1, l, p =>
    let m := p_match_token p [Token.star, Token.slash]
    if m.1 then
      match parse_expression_unary n m.2 with
      | Except.error e => Except.error e
      | Except.ok (r, p1) =>
        match p_previous m.2 with
        | Token.star => parse_mul_div_loop n (Expr.binaryMul l r) p1
        | Token.slash => parse_mul_div_loop n (Expr.binaryDiv l r) p1
        | _ => Except.error "Unexpected token while parsing mul or div"
    else Except.ok (l, p)

/-- `Parser::parse_expression_unary`: advances unconditionally (the
`FIXME` in the source), then dispatches on the consumed token. -/
def parse_expression_unary : Nat → ParserState → Except String (Expr × ParserState)
  | 0, _ => Except.error "parser out of fuel"
  | n + 1, p =>
    let a := p_advance p
    match a.1 with
    | Token.bang =>
      match parse_expression_unary n a.2 with
      | Except.error e => Except.error e
      | Except.ok (e, p1) => Except.ok (Expr.unaryBang e, p1)
    | Token.minus =>
      match parse_expression_unary n a.2 with
      | Except.error e => Except.error e
      | Except.ok (e, p1) => Except.ok (Expr.unaryMinus e, p1)
    | _ => parse_expression_call n a.2

/-- `Parser::parse_expression_call`. -/
def parse_expression_call : Nat → ParserState → Except String (Expr × ParserState)
  | 0, _ => Except.error "parser out of fuel"
  | n + 1, p =>
    match parse_expression_primary n p with
    | Except.error e => Except.error e
    | Except.ok (callee, p1) =>
      let m := p_match_token p1 [Token.leftParenthesis]
      if m.1 then
        let m2 := p_match_token m.2 [Token.rightParenthesis]
        if m2.1 then Except.ok (Expr.call callee [], m2.2)
        else
          match parse_call_arguments n [] m2.2 with
          | Except.error e => Except.error e
          | Except.ok (args, p2) =>
            let m3 := p_match_token p2 [Token.rightParenthesis]
            if m3.1 then Except.ok (Expr.call callee args, m3.2)
            else Except.error "Expected right parenthesis for closing function call."
      else Except.ok (callee, p1)

/-- The argument loop inside `parse_expression_call`. -/
def parse_call_arguments : Nat → List Expr → ParserState →
    Except String (List Expr × ParserState)
  | 0, _, _ => Except.error "parser out of fuel"
  | n + 1, acc, p =>
    match parse_expression n p with
    | Except.error e => Except.error e
    | Except.ok (e, p1) =>
      let m := p_match_token p1 [Token.comma]
      if m.1 then parse_call_arguments n (acc ++ [e]) m.2
      else Except.ok (acc ++ [e], m.2)

/-- `Parser::parse_expression_primary`: dispatch on `previous()`. -/
def parse_expression_primary : Nat → ParserState → Except String (Expr × ParserState)
  | 0, _ => Except.error "parser out of fuel"
  | n + 1, p =>
    match p_previous p with
    | Token.numberLiteral q => Except.ok (Expr.literalNumber q, p)
    | Token.stringLiteral s => Except.ok (Expr.literalString s, p)
    | Token.identifier s =>
      let idp := p_next_id p
      Except.ok (Expr.identifier idp.1 s, idp.2)
    | Token.falseKw => Except.ok (Expr.falseLit, p)
    | Token.trueKw => Except.ok (Expr.trueLit, p)
    | Token.nilKw => Except.ok (Expr.nilLit, p)
    | Token.leftParenthesis => parse_expression_parenthesis n p
    | _ => Except.error "Unexpected token while parsing primary"

/-- `Parser::parse_expression_parenthesis`. -/
def parse_expression_parenthesis : Nat → ParserState → Except String (Expr × ParserState)
  | 0, _ => Except.error "parser out of fuel"
  | n + 1, p =>
    match parse_expression n p with
    | Except.error e => Except.error e
    | Except.ok (e, p1) =>
      let m := p_match_token p1 [Token.rightParenthesis]
      if m.1 then Except.ok (e, m.2)
      else Except.error "Expected right parenthesis after expression."

end

/-- The `while !is_at_end` loop of `Parser::parse`. -/
def parse_loop : Nat → List Stmt → ParserState → Except String (List Stmt)
  | 0, _, _ => Except.error "parser out of fuel"
  | n + 1, acc, p =>
    if p_is_at_end p then Except.ok acc
    else
      match parse_statement n p with
      | Except.error e => Except.error e
      | Except.ok (s, p1) => parse_loop n (acc ++ [s]) p1

/-- `Parser::parse`, with fuel ample for any actual parse (each consumed
token costs a bounded number of calls; fuel exhaustion surfaces as an
error, which for realistic token vectors is unreachable). -/
def parse (tokens : List Token) : Except String (List Stmt) :=
  parse_loop (100 * tokens.length + 100)
    [] { tokens := tokens, current := 0, current_parse_tree_id := 0 }


/-!
## Values and functions (`src/src/lox/value.rs`, `src/src/lox/function.rs`)
-/

/-- `FunctionImpl` of `function.rs`: name, ordered argument names, body. -/
structure FunctionImpl where
  name : String
  arguments : List String
  body : Stmt

/-- The `Value` enum of `value.rs`. -/
inductive Value where
  | number (q : Rat)
  | string (s : String)
  | boolean (b : Bool)
  | callable (f : FunctionImpl)
  | nil

/-- `Value::is_truthy` exactly as written in `value.rs`: booleans are
their own truth value, a number is truthy iff it is not `0.0`, a string
iff it is non-empty, and `Nil` and `Callable` are always falsy. -/
def Value.is_truthy : Value → Bool
  | Value.boolean b => b
  | Value.number n => !(ratEqB n 0)
  | Value.string s => !(s == "")
  | Value.nil => false
  | Value.callable _ => false

/-- The numeric part of `Display for Value`.  Rust prints `f64` with
`{}`; the exact digit format is irrelevant to every claim, so integers
print as integers and non-integers as numerator/denominator. -/
def f64ToString (q : Rat) : String :=
  if q.den = 1 then toString q.num else toString q.num ++ "/" ++ toString q.den

/-- `Display for Value` (`value.rs`), with `FunctionImpl`'s own
`Display` (`<fn name>`) inlined for the `Callable` arm. -/
def Value.display : Value → String
  | Value.number n => f64ToString n
  | Value.string s => s
  | Value.boolean b => if b then "true" else "false"
  | Value.nil => "nil"
  | Value.callable f => "<callable> <fn " ++ f.name ++ ">"

/-- `FunctionImpl::get_arg_count` (the arity). -/
def FunctionImpl.get_arg_count (f : FunctionImpl) : Nat := f.arguments.length

/-- `FunctionImpl::get_arg_name`: the name of argument `i`, or an error
when `i` is out of range.  (The original message contains quoted names;
reproduced without the quotes.) -/
def FunctionImpl.get_arg_name (f : FunctionImpl) (i : Nat) : Except String String :=
  if h : i < f.arguments.length then Except.ok (f.arguments.get ⟨i, h⟩)
  else
    Except.error ("Function " ++ f.name ++ " has " ++ toString f.arguments.length ++
      " arguments, requested argument " ++ toString i)

/-!
## Environment (`src/src/lox/environment.rs`)

The Rust `EnvironmentImpl` stores `ValueBox`es
(`Arc<RwLock<Box<Value>>>`): shared, interior-mutable cells.  The runs
the interpreter performs are single-threaded and every lock acquisition
is a read, or a write with no concurrently-held conflicting guard, so the
lock-poisoning error paths are unreachable; the cells are embedded as
plain values, and in-place cell mutation (assignment) is embedded as a
write at the binding position the preceding lookup found (top frame or
globals) - observationally equal for these programs.

The frame stacks (`Vec`, top = last) are embedded as lists with the head
as the top.  `HashMap` becomes an association list: insert conses (the
newest binding shadows), lookup takes the first hit.
-/

/-- One scope frame: a map from name to value. -/
abbrev Frame := List (String × Value)

/-- The `EnvironmentImpl` struct: globals plus the frame stack
(`value_stack`, head = top frame). -/
structure EnvironmentImpl where
  global_variables : Frame
  value_stack : List Frame

/-- `EnvironmentImpl::get_variable`: look in the top frame if one exists,
then fall back to the globals.  Non-top frames are never searched. -/
def EnvironmentImpl.get_variable (env : EnvironmentImpl) (name : String) : Option Value :=
  match env.value_stack with
  | top :: _ =>
    match top.lookup name with
    | some v => some v
    | none => env.global_variables.lookup name
  | [] => env.global_variables.lookup name

/-- `EnvironmentImpl::define_variable`: insert into the top frame, or
into the globals when no frame is pushed. -/
def EnvironmentImpl.define_variable (env : EnvironmentImpl) (name : String) (v : Value) :
    EnvironmentImpl :=
  match env.value_stack with
  | top :: rest => { env with value_stack := ((name, v) :: top) :: rest }
  | [] => { env with global_variables := (name, v) :: env.global_variables }

/-- `EnvironmentImpl::push_stack` (called `push_variable_stack` at the
interpreter call sites). -/
def EnvironmentImpl.push_variable_stack (env : EnvironmentImpl) : EnvironmentImpl :=
  { env with value_stack := [] :: env.value_stack }

/-- `EnvironmentImpl::pop_stack` (called `pop_variable_stack` at the
interpreter call sites); `Vec::pop` on an empty stack is a no-op. -/
def EnvironmentImpl.pop_variable_stack (env : EnvironmentImpl) : EnvironmentImpl :=
  { env with value_stack := env.value_stack.tail }

/-- `EnvironmentImpl::define_function`: stored like any other value. -/
def EnvironmentImpl.define_function (env : EnvironmentImpl) (name : String)
    (f : FunctionImpl) : EnvironmentImpl :=
  env.define_variable name (Value.callable f)

/-- Where `get_variable` found a binding: in the top frame or in the
globals.  This is the embedding of the `ValueBox` handle that
`visit_assign` obtains before evaluating the right-hand side. -/
inductive VarLocation where
  | topFrame
  | globals
deriving DecidableEq, Repr

/-- The location of the cell `get_variable` returns, mirroring its
search order. -/
def EnvironmentImpl.get_variable_location (env : EnvironmentImpl) (name : String) :
    Option VarLocation :=
  match env.value_stack with
  | top :: _ =>
    match top.lookup name with
    | some _ => some VarLocation.topFrame
    | none =>
      match env.global_variables.lookup name with
      | some _ => some VarLocation.globals
      | none => none
  | [] =>
    match env.global_variables.lookup name with
    | some _ => some VarLocation.globals
    | none => none

/-- Write through the cell handle: update the binding at the recorded
location (the frame the cell lives in). -/
def EnvironmentImpl.assign_at (env : EnvironmentImpl) (loc : VarLocation) (name : String)
    (v : Value) : EnvironmentImpl :=
  match loc with
  | VarLocation.topFrame =>
    match env.value_stack with
    | top :: rest => { env with value_stack := ((name, v) :: top) :: rest }
    | [] => env
  | VarLocation.globals => { env with global_variables := (name, v) :: env.global_variables }

/-!
## Evaluator (`src/src/lox/interpreter.rs`)

The `Interpreter` owns its environment; `println!` output is collected in
an `output` trace.  Every `visit_*` method returns
`Result<ValueBox, String>`; here each becomes a case of `eval_expr` or
`eval_stmt`, functions from state to `Except String Value × InterpState`
(errors carry the state at the point of failure, matching `&mut self`).
`While` and `Call` can run forever, so the mutual recursion is made
structural with a fuel parameter; fuel exhaustion is reported as an
error, standing for non-termination.
-/

/-- The interpreter state: the owned environment plus the stdout trace. -/
structure InterpState where
  environment : EnvironmentImpl
  output : List String

/-- The pure combine step of `visit_binary_equal`: same-type structural
comparison, `Nil == Nil` true, mixed types false, never an error. -/
def combine_equal (l r : Value) : Except String Value :=
  match l, r with
  | Value.number a, Value.number b => Except.ok (Value.boolean (ratEqB a b))
  | Value.string a, Value.string b => Except.ok (Value.boolean (a == b))
  | Value.boolean a, Value.boolean b => Except.ok (Value.boolean (a == b))
  | Value.nil, Value.nil => Except.ok (Value.boolean true)
  | _, _ => Except.ok (Value.boolean false)

/-- The pure combine step of `visit_binary_not_equal`. -/
def combine_not_equal (l r : Value) : Except String Value :=
  match l, r with
  | Value.number a, Value.number b => Except.ok (Value.boolean (!(ratEqB a b)))
  | Value.string a, Value.string b => Except.ok (Value.boolean (!(a == b)))
  | Value.boolean a, Value.boolean b => Except.ok (Value.boolean (!(a == b)))
  | Value.nil, Value.nil => Except.ok (Value.boolean false)
  | _, _ => Except.ok (Value.boolean true)

/-- Byte-wise lexicographic `<` on strings (Rust `String` comparison);
on the ASCII strings the scanner admits this is character-wise. -/
def strLtB : List Char → List Char → Bool
  | [], [] => false
  | [], _ :: _ => true
  | _ :: _, [] => false
  | a :: as2, b :: bs =>
    if a.toNat < b.toNat then true
    else if b.toNat < a.toNat then false
    else strLtB as2 bs

/-- Lexicographic `<=` on strings. -/
def strLeB (a b : List Char) : Bool := !(strLtB b a)

/-- The pure combine step of `visit_binary_less`. -/
def combine_less (l r : Value) : Except String Value :=
  match l, r with
  | Value.number a, Value.number b => Except.ok (Value.boolean (ratLtB a b))
  | Value.string a, Value.string b => Except.ok (Value.boolean (strLtB a.data b.data))
  | _, _ =>
    Except.error "Less comparison can only be applied to operands both numbers or both strings"

/-- The pure combine step of `visit_binary_less_equal`. -/
def combine_less_equal (l r : Value) : Except String Value :=
  match l, r with
  | Value.number a, Value.number b => Except.ok (Value.boolean (ratLeB a b))
  | Value.string a, Value.string b => Except.ok (Value.boolean (strLeB a.data b.data))
  | _, _ =>
    Except.error
      "Less or equal comparison can only be applied to operands both numbers or both strings"

/-- The pure combine step of `visit_binary_greater`. -/
def combine_greater (l r : Value) : Except String Value :=
  match l, r with
  | Value.number a, Value.number b => Except.ok (Value.boolean (ratLtB b a))
  | Value.string a, Value.string b => Except.ok (Value.boolean (strLtB b.data a.data))
  | _, _ =>
    Except.error
      "Greater comparison can only be applied to operands both numbers or both strings"

/-- The pure combine step of `visit_binary_greater_equal`. -/
def combine_greater_equal (l r : Value) : Except String Value :=
  match l, r with
  | Value.number a, Value.number b => Except.ok (Value.boolean (ratLeB b a))
  | Value.string a, Value.string b => Except.ok (Value.boolean (strLeB b.data a.data))
  | _, _ =>
    Except.error
      "Greater or equal comparison can only be applied to operands both numbers or both strings"

/-- The pure combine step of `visit_binary_add`: numeric addition,
string concatenation, and string/number concatenation through the
display form. -/
def combine_add (l r : Value) : Except String Value :=
  match l, r with
  | Value.number a, Value.number b => Except.ok (Value.number (ratAdd a b))
  | Value.string a, Value.string b => Except.ok (Value.string (a ++ b))
  | Value.string a, Value.number b => Except.ok (Value.string (a ++ f64ToString b))
  | Value.number a, Value.string b => Except.ok (Value.string (f64ToString a ++ b))
  | _, _ =>
    Except.error "Addition can only be applied to operands both numbers or both strings"

/-- The pure combine step of `visit_binary_sub`. -/
def combine_sub (l r : Value) : Except String Value :=
  match l, r with
  | Value.number a, Value.number b => Except.ok (Value.number (ratSub a b))
  | _, _ => Except.error "Subtraction can only be applied to numbers"

/-- The pure combine step of `visit_binary_mul`. -/
def combine_mul (l r : Value) : Except String Value :=
  match l, r with
  | Value.number a, Value.number b => Except.ok (Value.number (ratMul a b))
  | _, _ => Except.error "Multiplication can only be applied to numbers"

/-- The pure combine step of `visit_binary_div`, with the explicit
division-by-zero check of the source. -/
def combine_div (l r : Value) : Except String Value :=
  match l, r with
  | Value.number a, Value.number b =>
    if ratEqB b 0 then Except.error "Division by zero"
    else Except.ok (Value.number (ratDiv a b))
  | _, _ => Except.error "Division can only be applied to numbers"

/-- The argument-binding loop of `visit_call`: for each evaluated
argument, fetch the formal name (`get_arg_name` can fail) and define it
in the current (just-pushed) frame.  On failure the error is returned
with the state as it stands - the source has a
`TODO: pop environment if there is an error` at this spot. -/
def bind_arguments (f : FunctionImpl) : List Value → Nat → InterpState →
    Except String Unit × InterpState
  | [], _, st => (Except.ok (), st)
  | v :: rest, i, st =>
    match f.get_arg_name i with
    | Except.error e => (Except.error e, st)
    | Except.ok argName =>
      bind_arguments f rest (i + 1)
        { st with environment := st.environment.define_variable argName v }

mutual

/-- The expression half of the `Interpreter` visitor
(`ExprVisitor<Result<ValueBox, String>> for Interpreter`), one case per
`visit_*` method. -/
def eval_expr : Nat → Expr → InterpState → Except String Value × InterpState
  | 0, _, st => (Except.error "out of fuel", st)
  | n + 1, e, st =>
    match e with
    | Expr.literalString s => (Except.ok (Value.string s), st)
    | Expr.literalNumber q => (Except.ok (Value.number q), st)
    | Expr.falseLit => (Except.ok (Value.boolean false), st)
    | Expr.trueLit => (Except.ok (Value.boolean true), st)
    | Expr.nilLit => (Except.ok Value.nil, st)
    | Expr.identifier _ name =>
      match st.environment.get_variable name with
      | some v => (Except.ok v, st)
      | none => (Except.error ("Undefined variable " ++ name), st)
    | Expr.assign _ left right =>
      match st.environment.get_variable_location left with
      | none => (Except.error ("Undefined variable " ++ left), st)
      | some loc =>
        match eval_expr n right st with
        | (Except.ok v, st1) =>
          (Except.ok v, { st1 with environment := st1.environment.assign_at loc left v })
        | (Except.error e, st1) => (Except.error e, st1)
    | Expr.binaryOr l r =>
      match eval_expr n l st with
      | (Except.ok lv, st1) =>
        if lv.is_truthy then (Except.ok lv, st1) else eval_expr n r st1
      | (Except.error e, st1) => (Except.error e, st1)
    | Expr.binaryAnd l r =>
      match eval_expr n l st with
      | (Except.ok lv, st1) =>
        if lv.is_truthy then eval_expr n r st1 else (Except.ok lv, st1)
      | (Except.error e, st1) => (Except.error e, st1)
    | Expr.binaryEqual l r => eval_binary n l r combine_equal st
    | Expr.binaryNotEqual l r => eval_binary n l r combine_not_equal st
    | Expr.binaryLess l r => eval_binary n l r combine_less st
    | Expr.binaryLessEqual l r => eval_binary n l r combine_less_equal st
    | Expr.binaryGreater l r => eval_binary n l r combine_greater st
    | Expr.binaryGreaterEqual l r => eval_binary n l r combine_greater_equal st
    | Expr.binaryAdd l r => eval_binary n l r combine_add st
    | Expr.binarySub l r => eval_binary n l r combine_sub st
    | Expr.binaryMul l r => eval_binary n l r combine_mul st
    | Expr.binaryDiv l r => eval_binary n l r combine_div st
    | Expr.unaryBang e1 =>
      match eval_expr n e1 st with
      | (Except.ok v, st1) =>
        match v with
        | Value.boolean b => (Except.ok (Value.boolean (!b)), st1)
        | Value.number _ => (Except.error "Unary bang cannot be applied to a number", st1)
        | Value.string _ => (Except.error "Unary bang cannot be applied to a string", st1)
        | Value.nil => (Except.error "Unary bang cannot be applied to nil", st1)
        | Value.callable _ => (Except.error "Unary bang cannot be applied to a function", st1)
      | (Except.error e1e, st1) => (Except.error e1e, st1)
    | Expr.unaryMinus e1 =>
      match eval_expr n e1 st with
      | (Except.ok v, st1) =>
        match v with
        | Value.number q => (Except.ok (Value.number (ratNeg q)), st1)
        | Value.string _ => (Except.error "Unary minus cannot be applied to a string", st1)
        | Value.boolean _ => (Except.error "Unary minus cannot be applied to a boolean", st1)
        | Value.nil => (Except.error "Unary minus cannot be applied to nil", st1)
        | Value.callable _ => (Except.error "Unary minus cannot be applied to a function", st1)
      | (Except.error e1e, st1) => (Except.error e1e, st1)
    | Expr.call callee arguments =>
      match eval_expr n callee st with
      | (Except.error e1e, st1) => (Except.error e1e, st1)
      | (Except.ok calleeV, st1) =>
        match calleeV with
        | Value.callable f =>
          if f.get_arg_count ≠ arguments.length then
            (Except.error ("Expected " ++ toString f.get_arg_count ++
              " arguments, but got " ++ toString arguments.length), st1)
          else
            match eval_expr_list n arguments st1 with
            | (Except.error e1e, st2) => (Except.error e1e, st2)
            | (Except.ok vals, st2) =>
              let st3 :=
                { st2 with environment := st2.environment.push_variable_stack }
              match bind_arguments f vals 0 st3 with
              | (Except.error e1e, st4) => (Except.error e1e, st4)
              | (Except.ok _, st4) =>
                match eval_stmt n f.body st4 with
                | (r, st5) =>
                  (r, { st5 with environment := st5.environment.pop_variable_stack })
        | _ => (Except.error "Can only call functions and classes", st1)

/-- The shared shape of the ten non-short-circuiting binary `visit_*`
methods: evaluate left, evaluate right, combine the two values. -/
def eval_binary : Nat → Expr → Expr → (Value → Value → Except String Value) →
    InterpState → Except String Value × InterpState
  | 0, _, _, _, st => (Except.error "out of fuel", st)
  | n + 1, l, r, k, st =>
    match eval_expr n l st with
    | (Except.ok lv, st1) =>
      match eval_expr n r st1 with
      | (Except.ok rv, st2) => (k lv rv, st2)
      | (Except.error e, st2) => (Except.error e, st2)
    | (Except.error e, st1) => (Except.error e, st1)

/-- The argument-evaluation loop of `visit_call` (left to right, error
aborts). -/
def eval_expr_list : Nat → List Expr → InterpState →
    Except String (List Value) × InterpState
  | 0, _, st => (Except.error "out of fuel", st)
  | n + 1, es, st =>
    match es with
    | [] => (Except.ok [], st)
    | e :: rest =>
      match eval_expr n e st with
      | (Except.error er, st1) => (Except.error er, st1)
      | (Except.ok v, st1) =>
        match eval_expr_list n rest st1 with
        | (Except.error er, st2) => (Except.error er, st2)
        | (Except.ok vs, st2) => (Except.ok (v :: vs), st2)

/-- The statement half of the `Interpreter` visitor
(`StmtVisitor<Result<ValueBox, String>> for Interpreter`). -/
def eval_stmt : Nat → Stmt → InterpState → Except String Value × InterpState
  | 0, _, st => (Except.error "out of fuel", st)
  | n + 1, s, st =>
    match s with
    | Stmt.print e =>
      match eval_expr n e st with
      | (Except.ok v, st1) =>
        (Except.ok Value.nil, { st1 with output := st1.output ++ [v.display] })
      | (Except.error er, st1) => (Except.error er, st1)
    | Stmt.expr e => eval_expr n e st
    | Stmt.varDeclaration name initializer =>
      match initializer with
      | some e =>
        match eval_expr n e st with
        | (Except.error er, st1) => (Except.error er, st1)
        | (Except.ok v, st1) =>
          let env2 := st1.environment.define_variable name v
          match env2.get_variable name with
          | some v2 => (Except.ok v2, { st1 with environment := env2 })
          | none =>
            (Except.error ("error defining variable " ++ name ++
              ". Variable not found after definition"), { st1 with environment := env2 })
      | none =>
        (Except.ok Value.nil,
          { st with environment := st.environment.define_variable name Value.nil })
    | Stmt.block stmts =>
      let st1 := { st with environment := st.environment.push_variable_stack }
      match eval_stmt_seq n stmts st1 with
      | (Except.ok _, st2) =>
        (Except.ok Value.nil, { st2 with environment := st2.environment.pop_variable_stack })
      | (Except.error er, st2) =>
        (Except.error er, { st2 with environment := st2.environment.pop_variable_stack })
    | Stmt.ifStmt condition then_branch else_branch =>
      match eval_expr n condition st with
      | (Except.error er, st1) => (Except.error er, st1)
      | (Except.ok cv, st1) =>
        if cv.is_truthy then eval_stmt n then_branch st1
        else
          match else_branch with
          | some s2 => eval_stmt n s2 st1
          | none => (Except.ok Value.nil, st1)
    | Stmt.whileStmt condition body =>
      match eval_expr n condition st with
      | (Except.error er, st1) => (Except.error er, st1)
      | (Except.ok cv, st1) =>
        if cv.is_truthy then
          match eval_stmt n body st1 with
          | (Except.error er, st2) => (Except.error er, st2)
          | (Except.ok _, st2) => eval_stmt n (Stmt.whileStmt condition body) st2
        else (Except.ok Value.nil, st1)
    | Stmt.functionDeclaration name arguments body =>
      (Except.ok Value.nil,
        { st with environment :=
            st.environment.define_function name (FunctionImpl.mk name arguments body) })

/-- The statement loop shared by `visit_block` (values discarded, first
error aborts). -/
def eval_stmt_seq : Nat → List Stmt → InterpState → Except String Unit × InterpState
  | 0, _, st => (Except.error "out of fuel", st)
  | n + 1, ss, st =>
    match ss with
    | [] => (Except.ok (), st)
    | s :: rest =>
      match eval_stmt n s st with
      | (Except.error er, st1) => (Except.error er, st1)
      | (Except.ok _, st1) => eval_stmt_seq n rest st1

end

/-!
## Wiring (`Interpreter::execute`, `src/src/lox/interpreter.rs` lines 16-32)

`execute` builds a scanner, scans, parses, and then evaluates: a
one-statement program returns that statement's value, otherwise all
statements run in order and `Nil` is returned.  To make the pipeline
structure a provable fact, the embedding also records which pipeline
components run (`phases`), one entry per component invocation in the
source of `execute`.
-/

/-- A pipeline component of the specification's
scanner - parser - resolver - evaluator chain. -/
inductive Phase where
  | scan
  | parse
  | resolve
  | eval
deriving DecidableEq, Repr

/-- The observable outcome of `Interpreter::execute`: the returned
`Result`, the components that ran, and the printed output. -/
structure ExecOutcome where
  result : Except String Value
  phases : List Phase
  output : List String

/-- A fresh `Interpreter::new()` state: empty environment, no output. -/
def initState : InterpState :=
  { environment := { global_variables := [], value_stack := [] }, output := [] }

/-- `Interpreter::execute`.  The fuel feeds the evaluator (`While` and
`Call` may diverge); scanner and parser carry their own ample fuel. -/
def interpreter_execute (fuel : Nat) (source : String) : ExecOutcome :=
  match scan_tokens source with
  | Except.error e => { result := Except.error e, phases := [Phase.scan], output := [] }
  | Except.ok tokens =>
    match parse tokens with
    | Except.error e =>
      { result := Except.error e, phases := [Phase.scan, Phase.parse], output := [] }
    | Except.ok statements =>
      match statements with
      | [s] =>
        let r := eval_stmt fuel s initState
        { result := r.1, phases := [Phase.scan, Phase.parse, Phase.eval],
          output := r.2.output }
      | _ =>
        let r := eval_stmt_seq fuel statements initState
        { result :=
            match r.1 with
            | Except.ok _ => Except.ok Value.nil
            | Except.error e => Except.error e,
          phases := [Phase.scan, Phase.parse, Phase.eval], output := r.2.output }

/-!
## Resolver (`src/src/lox/resolver.rs`)

The `Resolver` carries `scopes: Vec<HashMap<String, bool>>` and the
output map `interpreter_local_map: HashMap<ParseTreeId, usize>`.  Scopes
are embedded head-innermost (the head is the last-pushed Rust entry);
`resolve_local` iterates `enumerate().rev()`, i.e. from the innermost
scope (absolute index `len - 1`) down to the outermost (absolute index
0), inserting an entry for every scope that contains the name - the last
insert (the outermost containing scope) wins.  The AST recursion is
structural except for function bodies, so a fuel parameter is used the
same way as in the evaluator.
-/

/-- The `Resolver` struct fields. -/
structure ResolverState where
  scopes : List (List (String × Bool))
  interpreter_local_map : List (Nat × Nat)

/-- `Resolver::begin_scope`. -/
def r_begin_scope (st : ResolverState) : ResolverState :=
  { st with scopes := [] :: st.scopes }

/-- `Resolver::end_scope`. -/
def r_end_scope (st : ResolverState) : ResolverState :=
  { st with scopes := st.scopes.tail }

/-- `Resolver::declare`: insert `false` into the innermost scope, if any. -/
def r_declare (st : ResolverState) (name : String) : ResolverState :=
  match st.scopes with
  | top :: rest => { st with scopes := ((name, false) :: top) :: rest }
  | [] => st

/-- `Resolver::define`: insert `true` into the innermost scope, if any. -/
def r_define (st : ResolverState) (name : String) : ResolverState :=
  match st.scopes with
  | top :: rest => { st with scopes := ((name, true) :: top) :: rest }
  | [] => st

/-- The `for (i, scope) in self.scopes.iter().enumerate().rev()` loop of
`Resolver::resolve_local`: the list is traversed innermost-first, `i` is
the absolute index of the scope at the head (so the initial call passes
`scopes.length - 1`), and every containing scope inserts (the insert has
no `break`, so the final value comes from the outermost hit). -/
def resolve_local_go (name : String) (id : Nat) :
    List (List (String × Bool)) → Nat → List (Nat × Nat) → List (Nat × Nat)
  | [], _, m => m
  | scope :: rest, i, m =>
    resolve_local_go name id rest (i - 1)
      (if (scope.lookup name).isSome then (id, i) :: m else m)

/-- `Resolver::resolve_local`. -/
def r_resolve_local (st : ResolverState) (id : Nat) (name : String) : ResolverState :=
  { st with interpreter_local_map :=
      resolve_local_go name id st.scopes (st.scopes.length - 1) st.interpreter_local_map }

mutual

/-- The expression half of the `Resolver` visitor.  Note that
`visit_identifier` only performs the own-initializer check against the
innermost scope; it never calls `resolve_local`. -/
def resolve_expr : Nat → Expr → ResolverState → Except String ResolverState
  | 0, _, _ => Except.error "resolver out of fuel"
  | n + 1, e, st =>
    match e with
    | Expr.assign id left right =>
      match resolve_expr n right st with
      | Except.error er => Except.error er
      | Except.ok st1 => Except.ok (r_resolve_local st1 id left)
    | Expr.binaryOr l r => resolve_pair n l r st
    | Expr.binaryAnd l r => resolve_pair n l r st
    | Expr.binaryEqual l r => resolve_pair n l r st
    | Expr.binaryNotEqual l r => resolve_pair n l r st
    | Expr.binaryLess l r => resolve_pair n l r st
    | Expr.binaryLessEqual l r => resolve_pair n l r st
    | Expr.binaryGreater l r => resolve_pair n l r st
    | Expr.binaryGreaterEqual l r => resolve_pair n l r st
    | Expr.binaryAdd l r => resolve_pair n l r st
    | Expr.binarySub l r => resolve_pair n l r st
    | Expr.binaryMul l r => resolve_pair n l r st
    | Expr.binaryDiv l r => resolve_pair n l r st
    | Expr.unaryBang e1 => resolve_expr n e1 st
    | Expr.unaryMinus e1 => resolve_expr n e1 st
    | Expr.literalString _ => Except.ok st
    | Expr.literalNumber _ => Except.ok st
    | Expr.falseLit => Except.ok st
    | Expr.trueLit => Except.ok st
    | Expr.nilLit => Except.ok st
    | Expr.identifier _ name =>
      match st.scopes with
      | top :: _ =>
        match top.lookup name with
        | some defined =>
          if defined then Except.ok st
          else
            Except.error
              ("cannot read local variable " ++ name ++ " in its own initializer.")
        | none => Except.ok st
      | [] => Except.ok st
    | Expr.call callee arguments =>
      match resolve_expr n callee st with
      | Except.error er => Except.error er
      | Except.ok st1 => resolve_expr_list n arguments st1

/-- Left-then-right resolution shared by the binary `visit_*` methods. -/
def resolve_pair : Nat → Expr → Expr → ResolverState → Except String ResolverState
  | 0, _, _, _ => Except.error "resolver out of fuel"
  | n + 1, l, r, st =>
    match resolve_expr n l st with
    | Except.error er => Except.error er
    | Except.ok st1 => resolve_expr n r st1

/-- The argument loop of the resolver's `visit_call`. -/
def resolve_expr_list : Nat → List Expr → ResolverState → Except String ResolverState
  | 0, _, _ => Except.error "resolver out of fuel"
  | n + 1, es, st =>
    match es with
    | [] => Except.ok st
    | e :: rest =>
      match resolve_expr n e st with
      | Except.error er => Except.error er
      | Except.ok st1 => resolve_expr_list n rest st1

/-- The statement half of the `Resolver` visitor. -/
def resolve_stmt : Nat → Stmt → ResolverState → Except String ResolverState
  | 0, _, _ => Except.error "resolver out of fuel"
  | n + 1, s, st =>
    match s with
    | Stmt.print e => resolve_expr n e st
    | Stmt.expr e => resolve_expr n e st
    | Stmt.varDeclaration name initializer =>
      let st1 := r_declare st name
      match initializer with
      | some e =>
        match resolve_expr n e st1 with
        | Except.error er => Except.error er
        | Except.ok st2 => Except.ok (r_define st2 name)
      | none => Except.ok (r_define st1 name)
    | Stmt.block stmts =>
      match resolve_stmt_list n stmts (r_begin_scope st) with
      | Except.error er => Except.error er
      | Except.ok st1 => Except.ok (r_end_scope st1)
    | Stmt.ifStmt condition then_branch else_branch =>
      match resolve_expr n condition st with
      | Except.error er => Except.error er
      | Except.ok st1 =>
        match resolve_stmt n then_branch st1 with
        | Except.error er => Except.error er
        | Except.ok st2 =>
          match else_branch with
          | some s2 => resolve_stmt n s2 st2
          | none => Except.ok st2
    | Stmt.whileStmt condition body =>
      match resolve_expr n condition st with
      | Except.error er => Except.error er
      | Except.ok st1 => resolve_stmt n body st1
    | Stmt.functionDeclaration name arguments body =>
      let st1 := r_define (r_declare st name) name
      resolve_function n arguments body st1

/-- `Resolver::resolve_function`: new scope, declare+define each
parameter, resolve the body, end the scope. -/
def resolve_function : Nat → List String → Stmt → ResolverState →
    Except String ResolverState
  | 0, _, _, _ => Except.error "resolver out of fuel"
  | n + 1, arguments, body, st =>
    let st1 := arguments.foldl (fun acc a => r_define (r_declare acc a) a) (r_begin_scope st)
    match resolve_stmt n body st1 with
    | Except.error er => Except.error er
    | Except.ok st2 => Except.ok (r_end_scope st2)

/-- The statement loop of `Resolver::resolve` and of `visit_block`. -/
def resolve_stmt_list : Nat → List Stmt → ResolverState → Except String ResolverState
  | 0, _, _ => Except.error "resolver out of fuel"
  | n + 1, ss, st =>
    match ss with
    | [] => Except.ok st
    | s :: rest =>
      match resolve_stmt n s st with
      | Except.error er => Except.error er
      | Except.ok st1 => resolve_stmt_list n rest st1

end

/-- `Resolver::resolve`: clear the map, resolve every statement, return
the map. -/
def resolver_resolve (fuel : Nat) (statements : List Stmt) :
    Except String (List (Nat × Nat)) :=
  match resolve_stmt_list fuel statements { scopes := [], interpreter_local_map := [] } with
  | Except.error er => Except.error er
  | Except.ok st => Except.ok st.interpreter_local_map

/-!
## VM back-end (`src/src/lox/vm/`)
-/

/-- The `Value` enum of `vm/value.rs`. -/
inductive VmValue where
  | number (q : Rat)
  | boolean (b : Bool)
  | nil
deriving DecidableEq, Repr

/-- The `RuntimeError` enum of `vm/error.rs`, plus two artifacts of the
embedding: `unimplementedOpcode` stands for the opcodes decoded by
`opcodes.rs` for which `VirtualMachineImpl::run` has no match arm
(`Negate`, `Add`, `Subtract`, `Multiply`, `Divide` - the dispatch in
`vm.rs` covers only `Return` and `Constant`), and `outOfFuel` stands for
non-termination (unreachable: the instruction pointer strictly
increases). -/
inductive RuntimeError where
  | instructionPointerOutOfBounds (ip : Nat) (size : Nat)
  | invalidInstruction (b : Nat)
  | invalidConstantIndex (i : Nat)
  | stackUnderflow
  | stackOverflow (size : Nat)
  | unimplementedOpcode (b : Nat)
  | outOfFuel
deriving DecidableEq, Repr

/-- The `OpCode` enum of `vm/opcodes.rs`. -/
inductive OpCode where
  | constant
  | ret
  | negate
  | add
  | subtract
  | multiply
  | divide
deriving DecidableEq, Repr

/-- `OpCode::try_from(&u8)`. -/
def op_code_try_from (b : Nat) : Except RuntimeError OpCode :=
  if b = 0 then Except.ok OpCode.constant
  else if b = 1 then Except.ok OpCode.ret
  else if b = 2 then Except.ok OpCode.negate
  else if b = 3 then Except.ok OpCode.add
  else if b = 4 then Except.ok OpCode.subtract
  else if b = 5 then Except.ok OpCode.multiply
  else if b = 6 then Except.ok OpCode.divide
  else Except.error (RuntimeError.invalidInstruction b)

/-- `opcodes::try_from_with_offset`: the opcode and the next-instruction
offset (2 for `Constant`, 1 otherwise). -/
def try_from_with_offset (b : Nat) : Except RuntimeError (OpCode × Nat) :=
  match op_code_try_from b with
  | Except.error e => Except.error e
  | Except.ok op =>
    match op with
    | OpCode.constant => Except.ok (op, 2)
    | _ => Except.ok (op, 1)

/-- The `Chunk` struct of `vm/chunk.rs` (`code` bytes as `Nat`s below
256). -/
structure Chunk where
  code : List Nat
  constants : List VmValue
deriving DecidableEq, Repr

/-- `Chunk::get_byte`. -/
def Chunk.get_byte (c : Chunk) (index : Nat) : Except RuntimeError Nat :=
  match c.code.get? index with
  | some b => Except.ok b
  | none => Except.error (RuntimeError.instructionPointerOutOfBounds index c.code.length)

/-- `Chunk::get_constant`. -/
def Chunk.get_constant (c : Chunk) (index : Nat) : Except RuntimeError VmValue :=
  match c.constants.get? index with
  | some v => Except.ok v
  | none => Except.error (RuntimeError.invalidConstantIndex index)

/-- The `VmState` struct (stack head = top; `max_stack_size` defaults to
256; the tracing flag only affects printing and is omitted). -/
structure VmState where
  instruction_pointer : Nat
  stack : List VmValue
  max_stack_size : Nat
deriving DecidableEq, Repr

/-- `VirtualMachineImpl::stack_push` with its overflow check. -/
def vm_stack_push (st : VmState) (v : VmValue) : Except RuntimeError VmState :=
  if st.max_stack_size ≤ st.stack.length then
    Except.error (RuntimeError.stackOverflow st.max_stack_size)
  else Except.ok { st with stack := v :: st.stack }

/-- `VirtualMachineImpl::stack_pop`. -/
def vm_stack_pop (st : VmState) : Except RuntimeError (VmValue × VmState) :=
  match st.stack with
  | [] => Except.error RuntimeError.stackUnderflow
  | v :: rest => Except.ok (v, { st with stack := rest })

/-- The dispatch loop of `VirtualMachineImpl::run`.  The source's `match
op_code` has arms only for `Return` (advance, pop, print the popped
value, halt) and `Constant` (read the index byte, fetch the constant,
push, advance); every other decoded opcode has no arm and is reported as
`unimplementedOpcode`.  The printed values are returned as a trace. -/
def vm_run_loop : Nat → Chunk → VmState → List VmValue →
    (Except RuntimeError Unit × List VmValue)
  | 0, _, _, printed => (Except.error RuntimeError.outOfFuel, printed)
  | n + 1, chunk, st, printed =>
    match chunk.code.get? st.instruction_pointer with
    | none =>
      (Except.error
        (RuntimeError.instructionPointerOutOfBounds st.instruction_pointer
          chunk.code.length), printed)
    | some byte =>
      match try_from_with_offset byte with
      | Except.error e => (Except.error e, printed)
      | Except.ok (op, offset) =>
        match op with
        | OpCode.ret =>
          let st1 := { st with instruction_pointer := st.instruction_pointer + offset }
          match vm_stack_pop st1 with
          | Except.error e => (Except.error e, printed)
          | Except.ok (v, _) => (Except.ok (), printed ++ [v])
        | OpCode.constant =>
          match chunk.get_byte (st.instruction_pointer + 1) with
          | Except.error e => (Except.error e, printed)
          | Except.ok idx =>
            match chunk.get_constant idx with
            | Except.error e => (Except.error e, printed)
            | Except.ok v =>
              match vm_stack_push st v with
              | Except.error e => (Except.error e, printed)
              | Except.ok st1 =>
                vm_run_loop n chunk
                  { st1 with instruction_pointer := st1.instruction_pointer + offset }
                  printed
        | _ => (Except.error (RuntimeError.unimplementedOpcode byte), printed)

/-- `VirtualMachineImpl::run` on a fresh `VirtualMachineImpl::new()`
(instruction pointer 0, empty stack, capacity 256).  The fuel exceeds the
loop's worst case, since the instruction pointer strictly increases. -/
def vm_run (chunk : Chunk) : Except RuntimeError Unit × List VmValue :=
  vm_run_loop (chunk.code.length + 1) chunk
    { instruction_pointer := 0, stack := [], max_stack_size := 256 } []

/-!
## Frame-depth preservation (claim C3 infrastructure)

`stack depth` of a state is the number of pushed scope frames.  The
lemmas below show every environment operation except push/pop preserves
it, that the argument-binding loop cannot fail once the arity check has
passed (`get_arg_name` fails only for an out-of-range index), and then,
by induction on fuel, that every evaluator function leaves the depth
unchanged - `Block` pops on both exit paths, and `Call` pops after the
body because the binding error path (which would skip the pop) is
unreachable.
-/


lemma depth_define (env : EnvironmentImpl) (name : String) (v : Value) :
    (env.define_variable name v).value_stack.length = env.value_stack.length := by
  cases h : env.value_stack <;> simp [EnvironmentImpl.define_variable, h]

lemma depth_assign_at (env : EnvironmentImpl) (loc : VarLocation) (name : String) (v : Value) :
    (env.assign_at loc name v).value_stack.length = env.value_stack.length := by
  cases loc with
  | topFrame => cases h : env.value_stack <;> simp [EnvironmentImpl.assign_at, h]
  | globals => simp [EnvironmentImpl.assign_at]

lemma depth_define_function (env : EnvironmentImpl) (name : String) (f : FunctionImpl) :
    (env.define_function name f).value_stack.length = env.value_stack.length := by
  simp [EnvironmentImpl.define_function, depth_define]

lemma depth_push (env : EnvironmentImpl) :
    env.push_variable_stack.value_stack.length = env.value_stack.length + 1 := by
  simp [EnvironmentImpl.push_variable_stack]

lemma depth_pop (env : EnvironmentImpl) :
    env.pop_variable_stack.value_stack.length = env.value_stack.length - 1 := by
  simp [EnvironmentImpl.pop_variable_stack]

lemma bind_arguments_depth (f : FunctionImpl) :
    ∀ (vals : List Value) (i : Nat) (st : InterpState),
      ((bind_arguments f vals i st).2).environment.value_stack.length =
        st.environment.value_stack.length := by
  intro vals
  induction vals with
  | nil => intro i st; simp [bind_arguments]
  | cons v rest ih =>
    intro i st
    simp only [bind_arguments]
    cases h : f.get_arg_name i with
    | error e => simp
    | ok name => simp [ih, depth_define]

lemma bind_arguments_ok (f : FunctionImpl) :
    ∀ (vals : List Value) (i : Nat) (st : InterpState),
      i + vals.length ≤ f.arguments.length →
      (bind_arguments f vals i st).1 = Except.ok () := by
  intro vals
  induction vals with
  | nil => intro i st _; simp [bind_arguments]
  | cons v rest ih =>
    intro i st hle
    simp only [bind_arguments]
    have hi : i < f.arguments.length := by simp at hle; omega
    rw [FunctionImpl.get_arg_name, dif_pos hi]
    exact ih (i + 1) _ (by simp at hle ⊢; omega)

lemma eval_expr_list_ok_length :
    ∀ (n : Nat) (es : List Expr) (st : InterpState) (vals : List Value) (st2 : InterpState),
      eval_expr_list n es st = (Except.ok vals, st2) → vals.length = es.length := by
  intro n
  induction n with
  | zero => intro es st vals st2 h; simp [eval_expr_list] at h
  | succ n ih =>
    intro es st vals st2 h
    cases es with
    | nil => simp [eval_expr_list] at h; simp [h.1]
    | cons e rest =>
      simp only [eval_expr_list] at h
      cases h1 : eval_expr n e st with
      | mk r1 st1 =>
        rw [h1] at h
        cases r1 with
        | error er => simp at h
        | ok v =>
          simp only at h
          cases h2 : eval_expr_list n rest st1 with
          | mk r2 st3 =>
            rw [h2] at h
            cases r2 with
            | error er => simp at h
            | ok vs =>
              simp only at h
              obtain ⟨hv, _⟩ := Prod.mk.injEq .. ▸ h
              have := ih rest st1 vs st3 h2
              cases h
              simp [this]


lemma eval_depth_master : ∀ n : Nat,
    (∀ (e : Expr) (st : InterpState),
      ((eval_expr n e st).2).environment.value_stack.length =
        st.environment.value_stack.length) ∧
    (∀ (l r : Expr) (k : Value → Value → Except String Value) (st : InterpState),
      ((eval_binary n l r k st).2).environment.value_stack.length =
        st.environment.value_stack.length) ∧
    (∀ (es : List Expr) (st : InterpState),
      ((eval_expr_list n es st).2).environment.value_stack.length =
        st.environment.value_stack.length) ∧
    (∀ (s : Stmt) (st : InterpState),
      ((eval_stmt n s st).2).environment.value_stack.length =
        st.environment.value_stack.length) ∧
    (∀ (ss : List Stmt) (st : InterpState),
      ((eval_stmt_seq n ss st).2).environment.value_stack.length =
        st.environment.value_stack.length) := by
  intro n
  induction n with
  | zero =>
    refine ⟨?_, ?_, ?_, ?_, ?_⟩ <;> intros <;>
      simp [eval_expr, eval_binary, eval_expr_list, eval_stmt, eval_stmt_seq]
  | succ n ih =>
    obtain ⟨ihE, ihB, ihL, ihS, ihQ⟩ := ih
    refine ⟨?_, ?_, ?_, ?_, ?_⟩
    · -- eval_expr
      intro e st
      cases e with
      | literalString s => simp [eval_expr]
      | literalNumber q => simp [eval_expr]
      | falseLit => simp [eval_expr]
      | trueLit => simp [eval_expr]
      | nilLit => simp [eval_expr]
      | identifier pid name =>
        simp only [eval_expr]
        cases h : st.environment.get_variable name <;> simp
      | assign pid left right =>
        simp only [eval_expr]
        cases h : st.environment.get_variable_location left with
        | none => simp
        | some loc =>
          simp only
          cases h2 : eval_expr n right st with
          | mk r1 st1 =>
            have hd := ihE right st
            rw [h2] at hd
            cases r1 <;> simp [hd, depth_assign_at]
      | binaryOr l r =>
        simp only [eval_expr]
        cases h : eval_expr n l st with
        | mk r1 st1 =>
          have hd := ihE l st
          rw [h] at hd
          cases r1 with
          | error er => simpa using hd
          | ok lv =>
            simp only
            by_cases ht : lv.is_truthy <;> simp [ht, hd]
            · have hd2 := ihE r st1
              simp [hd2, hd]
      | binaryAnd l r =>
        simp only [eval_expr]
        cases h : eval_expr n l st with
        | mk r1 st1 =>
          have hd := ihE l st
          rw [h] at hd
          cases r1 with
          | error er => simpa using hd
          | ok lv =>
            simp only
            by_cases ht : lv.is_truthy <;> simp [ht, hd]
            · have hd2 := ihE r st1
              simp [hd2, hd]
      | binaryEqual l r => simpa [eval_expr] using ihB l r combine_equal st
      | binaryNotEqual l r => simpa [eval_expr] using ihB l r combine_not_equal st
      | binaryLess l r => simpa [eval_expr] using ihB l r combine_less st
      | binaryLessEqual l r => simpa [eval_expr] using ihB l r combine_less_equal st
      | binaryGreater l r => simpa [eval_expr] using ihB l r combine_greater st
      | binaryGreaterEqual l r => simpa [eval_expr] using ihB l r combine_greater_equal st
      | binaryAdd l r => simpa [eval_expr] using ihB l r combine_add st
      | binarySub l r => simpa [eval_expr] using ihB l r combine_sub st
      | binaryMul l r => simpa [eval_expr] using ihB l r combine_mul st
      | binaryDiv l r => simpa [eval_expr] using ihB l r combine_div st
      | unaryBang e1 =>
        simp only [eval_expr]
        cases h : eval_expr n e1 st with
        | mk r1 st1 =>
          have hd := ihE e1 st
          rw [h] at hd
          cases r1 with
          | error er => simpa using hd
          | ok v => cases v <;> simpa using hd
      | unaryMinus e1 =>
        simp only [eval_expr]
        cases h : eval_expr n e1 st with
        | mk r1 st1 =>
          have hd := ihE e1 st
          rw [h] at hd
          cases r1 with
          | error er => simpa using hd
          | ok v => cases v <;> simpa using hd
      | call callee arguments =>
        simp only [eval_expr]
        cases h : eval_expr n callee st with
        | mk r1 st1 =>
          have hd1 := ihE callee st
          rw [h] at hd1
          cases r1 with
          | error er => simpa using hd1
          | ok calleeV =>
            simp only
            cases calleeV with
            | callable f =>
              simp only
              by_cases harity : f.get_arg_count ≠ arguments.length
              · simp [harity, hd1]
              · simp only [harity, if_false]
                cases h2 : eval_expr_list n arguments st1 with
                | mk r2 st2 =>
                  have hd2 := ihL arguments st1
                  rw [h2] at hd2
                  cases r2 with
                  | error er => simpa using hd2.trans hd1
                  | ok vals =>
                    simp only
                    have hlen : vals.length = arguments.length :=
                      eval_expr_list_ok_length n arguments st1 vals st2 h2
                    have harity2 : f.arguments.length = arguments.length :=
                      not_ne_iff.mp harity
                    have hok : (bind_arguments f vals 0
                        { st2 with environment := st2.environment.push_variable_stack }).1 =
                        Except.ok () :=
                      bind_arguments_ok f vals 0 _ (by omega)
                    cases h3 : bind_arguments f vals 0
                        { st2 with environment := st2.environment.push_variable_stack } with
                    | mk r3 st4 =>
                      have hd3 := bind_arguments_depth f vals 0
                        { st2 with environment := st2.environment.push_variable_stack }
                      rw [h3] at hd3 hok
                      simp only [depth_push] at hd3
                      cases r3 with
                      | error er => simp at hok
                      | ok u =>
                        simp only
                        cases h4 : eval_stmt n f.body st4 with
                        | mk r4 st5 =>
                          have hd4 := ihS f.body st4
                          rw [h4] at hd4
                          simp only at hd1 hd2 hd3 hd4
                          simp [depth_pop]
                          omega
            | number q => simpa using hd1
            | string s => simpa using hd1
            | boolean b => simpa using hd1
            | nil => simpa using hd1
    · -- eval_binary
      intro l r k st
      simp only [eval_binary]
      cases h : eval_expr n l st with
      | mk r1 st1 =>
        have hd1 := ihE l st
        rw [h] at hd1
        cases r1 with
        | error er => simpa using hd1
        | ok lv =>
          simp only
          cases h2 : eval_expr n r st1 with
          | mk r2 st2 =>
            have hd2 := ihE r st1
            rw [h2] at hd2
            cases r2 <;> simp [hd2, hd1]
    · -- eval_expr_list
      intro es st
      cases es with
      | nil => simp [eval_expr_list]
      | cons e rest =>
        simp only [eval_expr_list]
        cases h : eval_expr n e st with
        | mk r1 st1 =>
          have hd1 := ihE e st
          rw [h] at hd1
          cases r1 with
          | error er => simpa using hd1
          | ok v =>
            simp only
            cases h2 : eval_expr_list n rest st1 with
            | mk r2 st2 =>
              have hd2 := ihL rest st1
              rw [h2] at hd2
              cases r2 <;> simp [hd2, hd1]
    · -- eval_stmt
      intro s st
      cases s with
      | print e =>
        simp only [eval_stmt]
        cases h : eval_expr n e st with
        | mk r1 st1 =>
          have hd := ihE e st
          rw [h] at hd
          cases r1 <;> simpa using hd
      | expr e => simpa [eval_stmt] using ihE e st
      | varDeclaration name initializer =>
        simp only [eval_stmt]
        cases initializer with
        | none => simp [depth_define]
        | some e =>
          simp only
          cases h : eval_expr n e st with
          | mk r1 st1 =>
            have hd := ihE e st
            rw [h] at hd
            cases r1 with
            | error er => simpa using hd
            | ok v =>
              simp only
              cases h2 : (st1.environment.define_variable name v).get_variable name <;>
                simp [depth_define, hd]
      | block stmts =>
        simp only [eval_stmt]
        cases h : eval_stmt_seq n stmts
            { st with environment := st.environment.push_variable_stack } with
        | mk r1 st1 =>
          have hd := ihQ stmts { st with environment := st.environment.push_variable_stack }
          rw [h] at hd
          simp [depth_push] at hd
          cases r1 <;> simp [depth_pop, hd]
      | ifStmt condition then_branch else_branch =>
        simp only [eval_stmt]
        cases h : eval_expr n condition st with
        | mk r1 st1 =>
          have hd := ihE condition st
          rw [h] at hd
          cases r1 with
          | error er => simpa using hd
          | ok cv =>
            simp only
            by_cases ht : cv.is_truthy
            · simp [ht, (ihS then_branch st1).trans hd]
            · cases else_branch with
              | some s2 => simp [ht, (ihS s2 st1).trans hd]
              | none => simp [ht, hd]
      | whileStmt condition body =>
        simp only [eval_stmt]
        cases h : eval_expr n condition st with
        | mk r1 st1 =>
          have hd := ihE condition st
          rw [h] at hd
          cases r1 with
          | error er => simpa using hd
          | ok cv =>
            simp only
            by_cases ht : cv.is_truthy
            · simp only [ht, if_true]
              cases h2 : eval_stmt n body st1 with
              | mk r2 st2 =>
                have hd2 := ihS body st1
                rw [h2] at hd2
                cases r2 with
                | error er => simpa using hd2.trans hd
                | ok v =>
                  simp only
                  exact (ihS (Stmt.whileStmt condition body) st2).trans (hd2.trans hd)
            · simp [ht, hd]
      | functionDeclaration name arguments body =>
        simp [eval_stmt, depth_define_function]
    · -- eval_stmt_seq
      intro ss st
      cases ss with
      | nil => simp [eval_stmt_seq]
      | cons s rest =>
        simp only [eval_stmt_seq]
        cases h : eval_stmt n s st with
        | mk r1 st1 =>
          have hd := ihS s st
          rw [h] at hd
          cases r1 with
          | error er => simpa using hd
          | ok v => simpa using (ihQ rest st1).trans hd

/-!
## Claim C3
-/

/-- C3: for every statement, every fuel budget and every starting state,
evaluating the statement - whether it succeeds, fails, or exhausts the
fuel - leaves the environment's scope-frame stack at exactly the depth
it had before evaluation; in particular `Block` and `Call` pop the frame
they pushed on every exit path that can occur. -/
theorem c3_scope_balance (fuel : Nat) (s : Stmt) (st : InterpState) :
    ((eval_stmt fuel s st).2).environment.value_stack.length =
      st.environment.value_stack.length :=
  (eval_depth_master fuel).2.2.2.1 s st

/-!
## Claim C1

`Value::is_truthy` (value.rs lines 16-24) treats `Number(0.0)`, the empty
string and every `Callable` as falsy, against the claim that only `Nil`
and `Boolean(false)` are falsy.  The unit test `test_value_truthiness` in
`value.rs` asserts exactly this behaviour, so the code is
self-consistent and the claim is corrected rather than a code bug.
-/

/-- The concrete function value used in the C1 and C6 theorems. -/
def c6_fun : FunctionImpl := FunctionImpl.mk "f" ["x"] (Stmt.expr Expr.nilLit)

/-- C1 counterexample: the claim says `is_truthy` is `true` on
`Number(0.0)`, the empty string and `Callable` values; the code returns
`false` on all three. -/
theorem c1_claim_counterexample :
    (Value.number 0).is_truthy = false ∧
    (Value.string "").is_truthy = false ∧
    (Value.callable c6_fun).is_truthy = false := by
  refine ⟨?_, ?_, ?_⟩ <;> decide

/-- C1 amended: `is_truthy` returns `false` exactly on `Nil`,
`Boolean(false)`, `Number(0.0)`, the empty string, and every `Callable`
value, and `true` on every other value. -/
theorem c1_amended_truthiness (v : Value) :
    v.is_truthy = false ↔
      (v = Value.nil ∨ v = Value.boolean false ∨ v = Value.number 0 ∨
        v = Value.string "" ∨ ∃ f, v = Value.callable f) := by
  cases v with
  | number q => simp [Value.is_truthy, ratEqB]
  | string s => simp [Value.is_truthy]
  | boolean b => simp [Value.is_truthy]
  | nil => simp [Value.is_truthy]
  | callable f => simp [Value.is_truthy]

/-!
## Claim C2

`Interpreter::execute` (interpreter.rs lines 16-32) wires scanner to
parser to evaluator; no resolver is constructed or invoked anywhere in
`execute`.  The `phases` trace of the embedding records one entry per
component invocation in the source.
-/

/-- C2 counterexample: a successful run of `execute` (on the empty
source) in which the resolver phase does not appear - the pipeline that
runs is scanner, parser, evaluator. -/
theorem c2_claim_counterexample :
    (interpreter_execute 1 "").result = Except.ok Value.nil ∧
    (interpreter_execute 1 "").phases = [Phase.scan, Phase.parse, Phase.eval] ∧
    Phase.resolve ∉ (interpreter_execute 1 "").phases := by
  refine ⟨rfl, rfl, ?_⟩
  intro h
  simp [interpreter_execute, scan_tokens, parse] at h
  revert h
  decide

/-- C2 amended: `Interpreter::execute` runs the scanner, then (on
success) the parser, then (on success) the evaluator; the resolver pass
is never executed, on any source and any fuel. -/
theorem c2_amended_pipeline (fuel : Nat) (source : String) :
    ((interpreter_execute fuel source).phases = [Phase.scan] ∨
      (interpreter_execute fuel source).phases = [Phase.scan, Phase.parse] ∨
      (interpreter_execute fuel source).phases = [Phase.scan, Phase.parse, Phase.eval]) ∧
    Phase.resolve ∉ (interpreter_execute fuel source).phases := by
  unfold interpreter_execute
  cases h1 : scan_tokens source with
  | error e => simp
  | ok toks =>
    cases h2 : parse toks with
    | error e => simp [h2]
    | ok stmts =>
      cases stmts with
      | nil => simp [h2]
      | cons a rest => cases rest <;> simp [h2]

/-!
## Claim C4

`EnvironmentImpl::get_variable` (environment.rs lines 43-52) consults
`value_stack.last()` - the top frame only - and then the globals.  It
never walks the outer frames, so a name bound only in a non-top frame is
not found.
-/

/-- An environment whose top frame is empty and whose single non-top
frame binds `a` (globals empty). -/
def c4_env : EnvironmentImpl :=
  { global_variables := [], value_stack := [[], [("a", Value.number 1)]] }

/-- C4 counterexample: `a` is bound in a non-top frame of `c4_env`
(lookup in that frame succeeds), yet `get_variable` returns `none` - the
claim says the outer frames are searched and the binding found. -/
theorem c4_claim_counterexample :
    (List.lookup "a" [("a", Value.number 1)] = some (Value.number 1)) ∧
    c4_env.value_stack.getD 1 [] = [("a", Value.number 1)] ∧
    c4_env.get_variable "a" = none := by
  refine ⟨rfl, rfl, rfl⟩

/-- C4 amended: `get_variable` searches only the topmost frame and then
the globals; the result never depends on the non-top frames, and with no
frame pushed it is the global lookup. -/
theorem c4_amended_lookup :
    (∀ (g top : Frame) (rest : List Frame) (name : String),
      EnvironmentImpl.get_variable ⟨g, top :: rest⟩ name =
        match top.lookup name with
        | some v => some v
        | none => g.lookup name) ∧
    (∀ (g top : Frame) (rest rest2 : List Frame) (name : String),
      EnvironmentImpl.get_variable ⟨g, top :: rest⟩ name =
        EnvironmentImpl.get_variable ⟨g, top :: rest2⟩ name) ∧
    (∀ (g : Frame) (name : String),
      EnvironmentImpl.get_variable ⟨g, []⟩ name = g.lookup name) := by
  refine ⟨fun g top rest name => rfl, fun g top rest rest2 name => rfl,
    fun g name => rfl⟩

/-!
## Claim C5

`Resolver::resolve_local` (resolver.rs lines 54-64) iterates
`enumerate().rev()` over the scopes and inserts `(id, i)` for every
scope containing the name, without breaking, so the surviving entry is
the absolute index of the outermost containing scope (0 = outermost) -
not the hop distance of the innermost one.  And the resolver's
`visit_identifier` (lines 274-286) performs only the own-initializer
check; it never calls `resolve_local`, so identifier-reference nodes get
no entry at all.
-/

/-- A program with an assignment (parse-tree id 7) and an identifier
reference (parse-tree id 3) to `a`, from a doubly-nested block whose
inner scope binds only `b`.  The claim predicts map entries 7 to 1 and
3 to 1 (innermost-out hop distance); the code produces 7 to 0 and no
entry for 3. -/
def c5_program : List Stmt :=
  [Stmt.block
    [Stmt.varDeclaration "a" none,
     Stmt.block
       [Stmt.varDeclaration "b" none,
        Stmt.expr (Expr.assign 7 "a" Expr.nilLit),
        Stmt.expr (Expr.identifier 3 "a")]]]

/-- C5 counterexample: on `c5_program` the resolver returns the map
`[(7, 0)]`: the assignment node 7 is mapped to 0 (the absolute index of
the outermost scope containing `a`), not to hop distance 1, and the
identifier node 3 - whose name is bound in an enclosing local scope -
receives no entry, rather than the claimed hop distance 1. -/
theorem c5_claim_counterexample :
    resolver_resolve 10 c5_program = Except.ok [(7, 0)] ∧
    List.lookup 7 [((7 : Nat), (0 : Nat))] = some 0 ∧
    List.lookup 3 [((7 : Nat), (0 : Nat))] = none ∧
    ¬(List.lookup 7 [((7 : Nat), (0 : Nat))] = some 1) := by
  refine ⟨rfl, by decide, by decide, by decide⟩

/-- The absolute scope index (0 = outermost) of the outermost scope
containing `name`, for a scope list stored innermost-first: the
characterisation of which entry of `resolve_local`'s insert sequence
survives. -/
def outermost_containing (name : String) : List (List (String × Bool)) → Option Nat
  | [] => none
  | s :: rest =>
    match outermost_containing name rest with
    | some j => some j
    | none => if (s.lookup name).isSome then some rest.length else none

/-- C5 amended: (i) after `resolve_local`, the map sends the node's id
to the absolute index (0 = outermost) of the outermost enclosing scope
containing the name, and is untouched when no scope contains it; (ii)
the resolver's identifier visitor either returns the state unchanged or
fails - it records nothing, so only assignment nodes receive entries. -/
theorem c5_amended_resolver :
    (∀ (name : String) (id : Nat) (scopes : List (List (String × Bool)))
        (m : List (Nat × Nat)),
      List.lookup id (resolve_local_go name id scopes (scopes.length - 1) m) =
        match outermost_containing name scopes with
        | some j => some j
        | none => List.lookup id m) ∧
    (∀ (fuel : Nat) (st : ResolverState) (pid : Nat) (name : String),
      resolve_expr (fuel + 1) (Expr.identifier pid name) st = Except.ok st ∨
      ∃ e, resolve_expr (fuel + 1) (Expr.identifier pid name) st = Except.error e) := by
  constructor
  · intro name id scopes
    induction scopes with
    | nil => intro m; simp [resolve_local_go, outermost_containing]
    | cons s rest ih =>
      intro m
      have hlen : (s :: rest).length - 1 = rest.length := by simp
      rw [resolve_local_go, hlen]
      by_cases hc : (s.lookup name).isSome
      · rw [if_pos hc, ih]
        cases homc : outermost_containing name rest with
        | some j => simp [outermost_containing, homc]
        | none => simp [outermost_containing, homc, hc, List.lookup]
      · rw [if_neg hc, ih]
        cases homc : outermost_containing name rest with
        | some j => simp [outermost_containing, homc]
        | none => simp [outermost_containing, homc, hc]
  · intro fuel st pid name
    rw [resolve_expr]
    cases hs : st.scopes with
    | nil => left; rfl
    | cons top rest =>
      cases hl : top.lookup name with
      | none => left; simp [hl]
      | some defined =>
        cases defined with
        | true => left; simp [hl]
        | false =>
          right
          exact ⟨"cannot read local variable " ++ name ++ " in its own initializer.",
            by simp [hl]⟩

/-!
## Claim C6

`Interpreter::visit_call` (interpreter.rs lines 491-543) evaluates the
callee, checks the arity against the syntactic argument count, and only
after that evaluates the arguments and runs the body.
-/

/-- C6: whenever the callee of a `Call` with `N` argument expressions
evaluates to a `Callable` whose arity differs from `N`, the call
evaluates to the arity error, and the resulting state is exactly the
state after callee evaluation: no argument expression is evaluated, no
frame is pushed, and the body is never executed (not even partially). -/
theorem c6_arity_mismatch (fuel : Nat) (callee : Expr) (arguments : List Expr)
    (st st1 : InterpState) (f : FunctionImpl)
    (hc : eval_expr fuel callee st = (Except.ok (Value.callable f), st1))
    (hn : f.get_arg_count ≠ arguments.length) :
    eval_expr (fuel + 1) (Expr.call callee arguments) st =
      (Except.error ("Expected " ++ toString f.get_arg_count ++
        " arguments, but got " ++ toString arguments.length), st1) := by
  rw [eval_expr, hc]
  simp [hn]

/-- The interpreter state used by the C6 witness: a global `f` of
arity 1. -/
def c6_state : InterpState :=
  { environment := { global_variables := [("f", Value.callable c6_fun)], value_stack := [] },
    output := [] }

/-- Witness for C6: calling the arity-1 function `f` with zero arguments
errors and leaves the state untouched. -/
theorem c6_arity_mismatch_witness :
    eval_expr 2 (Expr.call (Expr.identifier 0 "f") []) c6_state =
      (Except.error ("Expected " ++ toString (1 : Nat) ++
        " arguments, but got " ++ toString (0 : Nat)), c6_state) :=
  c6_arity_mismatch 1 (Expr.identifier 0 "f") [] c6_state c6_state c6_fun rfl (by decide)

/-!
## Claim C7

`Scanner::scan_tokens` (scanner.rs lines 17-37) returns an error only
for non-ASCII input.  `match_string_literal` (lines 186-208) ends
silently at end of input - the source carries
`FIXME: end of file reached, but string is not closed, return error` -
and `match_number_literal` (lines 210-261) carries `TODO: return error`
at both the second decimal point and the failed parse, doing nothing.
The code therefore contradicts its own in-source documentation of the
intended behaviour; the claim matches the intent, so this is a code bug.
-/

/-- C7: evaluating the scanner at the claim's failing inputs: the ASCII
input consisting of an unterminated string literal is accepted (with the
literal silently dropped), the malformed number `1.2.3` is accepted
(with the number silently dropped), and scanning fails exactly on
non-ASCII input (so neither bad literal can ever produce a `ScanError`). -/
theorem c7_scanner_missing_errors :
    scan_tokens "\"abc" = Except.ok [Token.eof] ∧
    scan_tokens "1.2.3" = Except.ok [Token.eof] ∧
    (∀ source : String,
      (∃ toks, scan_tokens source = Except.ok toks) ↔ isAsciiString source = true) := by
  refine ⟨rfl, rfl, ?_⟩
  intro source
  unfold scan_tokens
  by_cases h : isAsciiString source <;> simp [h]

/-!
## Claim C8

`Scanner::match_root` (scanner.rs lines 39-88) has match arms for
`+ - * / = < > "`, newline, space, digits and letters; `( ) { } , . ;`
fall into the catch-all `other => {}` arm and are silently dropped.  The
parser of the same repository requires `LeftParenthesis`, `Semicolon`
etc., and the committed interpreter test expects `"1 + (2);"` to
evaluate to `Number(3.0)` - impossible with this scanner - so the code
contradicts the repository's own tests and the claim records the intent:
a code bug.
-/

/-- C8: evaluating the code at the claim's inputs: scanning `(` or `;`
or any punctuation-only source yields no token before `Eof`, and the
repository's own interpreter test input `1 + (2);` consequently fails to
parse instead of evaluating to `Number(3.0)`. -/
theorem c8_punctuation_dropped :
    scan_tokens "(" = Except.ok [Token.eof] ∧
    scan_tokens ";" = Except.ok [Token.eof] ∧
    scan_tokens "(){},.;" = Except.ok [Token.eof] ∧
    (interpreter_execute 10 "1 + (2);").result =
      Except.error "Expected semicolon after expression." := by
  exact ⟨rfl, rfl, rfl, rfl⟩

/-!
## Claim C9

`VirtualMachineImpl::run` (vm.rs lines 56-129) dispatches only
`OpCode::Return` and `OpCode::Constant`; `opcodes.rs` decodes byte 0x03
to `Add` with offset 1, but `run` has no arm for it (the Rust match over
the seven-variant enum is not even exhaustive), and `run` returns
`Result<(), _>`, printing the popped return value rather than producing
it.  The spec's scenario (chunk `[CONSTANT 0, CONSTANT 1, ADD, RETURN]`
with constants `[1.5, 2.5]` returning `Number(4.0)`) is the clear
intent: a code bug.
-/

/-- The claim's chunk: `[CONSTANT 0, CONSTANT 1, ADD, RETURN]` with
constants `[1.5, 2.5]`. -/
def c9_chunk : Chunk :=
  { code := [0, 0, 0, 1, 3, 1],
    constants := [VmValue.number (mkRat 15 10), VmValue.number (mkRat 25 10)] }

/-- C9: evaluating the code at the claim's input: byte 3 decodes to the
`Add` opcode, but running the chunk stops at it with the
missing-match-arm outcome after the two constants are pushed - nothing
is printed and no `Number(4.0)` is produced. -/
theorem c9_vm_add_unimplemented :
    try_from_with_offset 3 = Except.ok (OpCode.add, 1) ∧
    vm_run c9_chunk = (Except.error (RuntimeError.unimplementedOpcode 3), []) := by
  exact ⟨rfl, rfl⟩

/-!
## Claim C10

`Interpreter::execute` (interpreter.rs lines 16-32) matches on
`statements.len()`: a one-statement program returns that statement's
value; otherwise all statements run in order and a fresh `Nil` is
returned.
-/

/-- C10: for every source that scans and parses successfully, `execute`
returns the value of the single statement when the parsed program has
exactly one statement, and returns `Nil` when it has any other number of
statements and they all evaluate without error - so a trailing
expression statement's value is observable only from a one-statement
program. -/
theorem c10_execute_result (fuel : Nat) (source : String) (tokens : List Token)
    (statements : List Stmt)
    (h1 : scan_tokens source = Except.ok tokens)
    (h2 : parse tokens = Except.ok statements) :
    (∀ s, statements = [s] →
      (interpreter_execute fuel source).result = (eval_stmt fuel s initState).1) ∧
    (statements.length ≠ 1 →
      ∀ stF : InterpState,
        eval_stmt_seq fuel statements initState = (Except.ok (), stF) →
        (interpreter_execute fuel source).result = Except.ok Value.nil) := by
  constructor
  · intro s hs
    subst hs
    simp [interpreter_execute, h1, h2]
  · intro hne stF hseq
    cases statements with
    | nil => simp [interpreter_execute, h1, h2, hseq]
    | cons a rest =>
      cases rest with
      | nil => simp at hne
      | cons b rest2 => simp [interpreter_execute, h1, h2, hseq]

/-- Witness for C10: the empty source scans to `[Eof]`, parses to the
empty (zero-statement) program, and `execute` returns `Nil`. -/
theorem c10_execute_result_witness :
    (interpreter_execute 1 "").result = Except.ok Value.nil :=
  (c10_execute_result 1 "" [Token.eof] [] rfl rfl).2 (by decide) initState rfl
